import Mathlib

/-!
Verification of the HolyC compiler pipeline specification against a shallow
embedding of the C++ sources (frontend/preprocessor.cpp, frontend/sema.cpp,
frontend/hir.cpp, frontend/diagnostics.cpp, lowering/llvm_irbuilder_backend.cpp).

Machine integers are modelled as `Nat`/`Int` with explicit `% 2 ^ w` where the
source relies on fixed-width wrap-around.  Text is modelled as `String`/`List Char`
(the sources operate on bytes; all inputs exercised here are ASCII).  Fallible
code returns `Except`.
-/

/-! ## Diagnostics (src/frontend/diagnostics.cpp) -/

/-- Severity enum from diagnostics.h. -/
inductive DiagnosticSeverity where
  | kError
  | kWarning
  | kNote
deriving DecidableEq, Repr

/-- Diagnostic record (code, severity, file, line, col, message, remediation). -/
structure Diagnostic where
  code : String
  severity : DiagnosticSeverity
  file : String
  line : Int
  column : Int
  message : String
  remediation : String
deriving DecidableEq, Repr

/-- `FormatDiagnostic` from diagnostics.cpp, translated append-for-append from
the `std::ostringstream` sequence. -/
def formatDiagnostic (diag : Diagnostic) : String :=
  let sev : String :=
    if diag.severity = DiagnosticSeverity.kWarning then "warning"
    else if diag.severity = DiagnosticSeverity.kNote then "note"
    else "error"
  let out := sev
  let out := if ¬ (diag.code = "") then out ++ "[" ++ diag.code ++ "]" else out
  let out := out ++ ": "
  let out :=
    if ¬ (diag.file = "") then
      let out := out ++ diag.file
      let out :=
        if 0 < diag.line then
          let out := out ++ ":" ++ toString diag.line
          if 0 < diag.column then out ++ ":" ++ toString diag.column else out
        else out
      out ++ ": "
    else out
  let out := out ++ diag.message
  if ¬ (diag.remediation = "") then out ++ "\nhelp: " ++ diag.remediation else out

/-! ## Lane access (src/lowering/llvm_irbuilder_backend.cpp) -/

/-- `LaneInfo` from the IR builder: lane selector width and signedness. -/
structure LaneInfo where
  valid : Bool := false
  bits : Nat := 0
  isSigned : Bool := false
deriving DecidableEq, Repr

/-- `ParseLaneInfo`: maps a lane selector (case-insensitively) to its width and
signedness; unknown selectors yield an invalid `LaneInfo`. -/
def parseLaneInfo (laneSelector : String) : LaneInfo :=
  let lowered := String.mk (laneSelector.data.map Char.toLower)
  if lowered = "i8" ∨ lowered = "u8" then
    { valid := true, bits := 8, isSigned := lowered = "i8" }
  else if lowered = "i16" ∨ lowered = "u16" then
    { valid := true, bits := 16, isSigned := lowered = "i16" }
  else if lowered = "i32" ∨ lowered = "u32" then
    { valid := true, bits := 32, isSigned := lowered = "i32" }
  else if lowered = "i64" ∨ lowered = "u64" then
    { valid := true, bits := 64, isSigned := lowered = "i64" }
  else
    { }

/-- `CastIntegerWithSignedness` on an integer value `v < 2 ^ fromBits`:
identity at equal widths, sign/zero extension when widening
(`CreateSExt`/`CreateZExt`), truncation when narrowing (`CreateTrunc`). -/
def castIntegerWithSignedness (fromBits toBits : Nat) (signedExtend : Bool) (v : Nat) : Nat :=
  if fromBits = toBits then v
  else if fromBits < toBits then
    if signedExtend then
      (if v < 2 ^ (fromBits - 1) then v else v + (2 ^ toBits - 2 ^ fromBits))
    else v
  else v % 2 ^ toBits

/-- The `raw_mask` constant of `EmitLaneLoad`/`StoreAssignable`:
all-ones over `bits` lane bits (the source special-cases `bits >= 64` with the
u64 maximum, which coincides with `2 ^ bits - 1` at `bits = 64`). -/
def laneRawMask (bits : Nat) : Nat := 2 ^ bits - 1

/-- `EmitLaneLoad`'s value computation on a `baseBits`-wide base integer:
`(base >> (index * lane_bits)) & lane_mask`, truncated to the lane width and
then sign/zero-extended to 64 bits by the lane signedness.  `CreateMul` of the
index wraps in `baseBits` bits. -/
def emitLaneLoad (baseBits : Nat) (lane : LaneInfo) (base index : Nat) : Nat :=
  let indexInt := index % 2 ^ baseBits
  let shiftAmount := (indexInt * lane.bits) % 2 ^ baseBits
  let shifted := base >>> shiftAmount
  let laneBitsValue := shifted &&& laneRawMask lane.bits
  let laneVal := if lane.bits = baseBits then laneBitsValue else laneBitsValue % 2 ^ lane.bits
  castIntegerWithSignedness lane.bits 64 lane.isSigned laneVal

/-- `StoreAssignable`'s lane path on a `baseBits`-wide base integer: truncate
the rhs to the lane width, clear the lane's bits of the base
(`CreateAnd` with `CreateNot` of the shifted mask) and OR in the shifted,
masked rhs.  Shifts and the index multiply wrap in `baseBits` bits. -/
def storeAssignableLane (baseBits : Nat) (lane : LaneInfo) (base index rhs : Nat) : Nat :=
  let indexInt := index % 2 ^ baseBits
  let shiftAmount := (indexInt * lane.bits) % 2 ^ baseBits
  let rhsLane := castIntegerWithSignedness 64 lane.bits lane.isSigned rhs
  let baseMask := laneRawMask lane.bits
  let shiftedMask := (baseMask <<< shiftAmount) % 2 ^ baseBits
  let clearedBase := base &&& ((2 ^ baseBits - 1) ^^^ shiftedMask)
  let rhsBase := castIntegerWithSignedness lane.bits baseBits false rhsLane
  let shiftedRhs := (rhsBase <<< shiftAmount) % 2 ^ baseBits
  let maskedRhs := shiftedRhs &&& shiftedMask
  clearedBase ||| maskedRhs

example : parseLaneInfo "u8" = { valid := true, bits := 8, isSigned := false } := by decide
example : emitLaneLoad 64 (parseLaneInfo "u8") (storeAssignableLane 64 (parseLaneInfo "u8") 0 1 0xAA) 1 = 0xAA := by decide
example : emitLaneLoad 16 (parseLaneInfo "i8") (storeAssignableLane 16 (parseLaneInfo "i8") 0x1234 1 0x80) 1 = 0xFFFFFFFFFFFFFF80 := by decide


theorem lane_extract (B W shift x base rhsLane : Nat)
    (hsw : shift + W ≤ B)
    (hrl : ∀ j, j < W → rhsLane.testBit j = x.testBit j) :
    (((base &&& ((2 ^ B - 1) ^^^ (((2 ^ W - 1) <<< shift) % 2 ^ B))) |||
        (((rhsLane <<< shift) % 2 ^ B) &&& (((2 ^ W - 1) <<< shift) % 2 ^ B))) >>> shift) &&&
      (2 ^ W - 1) = x % 2 ^ W := by
  apply Nat.eq_of_testBit_eq
  intro j
  simp only [Nat.testBit_land, Nat.testBit_lor, Nat.testBit_xor, Nat.testBit_shiftLeft,
    Nat.testBit_shiftRight, Nat.testBit_mod_two_pow, Nat.testBit_two_pow_sub_one]
  by_cases hj : j < W
  · have h1 : shift + j < B := by omega
    have h3 : shift + j - shift = j := by omega
    simp [h1, h3, hj, hrl j hj, Nat.le_add_right]
  · simp [hj]

theorem cast_same (b : Nat) (s : Bool) (v : Nat) : castIntegerWithSignedness b b s v = v := by
  simp [castIntegerWithSignedness]

theorem cast_widen_unsigned (f t v : Nat) (h : f ≤ t) :
    castIntegerWithSignedness f t false v = v := by
  unfold castIntegerWithSignedness
  rcases Nat.lt_or_ge f t with h2 | h2
  · simp [Nat.ne_of_lt h2, h2]
  · have : f = t := by omega
    simp [this]

theorem cast_narrow64 (W : Nat) (s : Bool) (x : Nat) (h : W ≤ 64) :
    castIntegerWithSignedness 64 W s x = if W = 64 then x else x % 2 ^ W := by
  unfold castIntegerWithSignedness
  by_cases heq : W = 64
  · simp [heq]
  · have h1 : ¬ (64 = W) := fun hc => heq hc.symm
    have h2 : ¬ (64 < W) := by omega
    simp [h1, h2, heq]

theorem parseLaneInfo_valid_bits (s : String) (h : (parseLaneInfo s).valid = true) :
    (parseLaneInfo s).bits = 8 ∨ (parseLaneInfo s).bits = 16 ∨
      (parseLaneInfo s).bits = 32 ∨ (parseLaneInfo s).bits = 64 := by
  simp only [parseLaneInfo] at h ⊢
  split_ifs at h ⊢ <;> simp_all

theorem lane_round_trip (laneSelector : String) (lane : LaneInfo)
    (hsel : parseLaneInfo laneSelector = lane) (hvalid : lane.valid = true)
    (B index x base : Nat) (hdvd : lane.bits ∣ B) (hB : B ≤ 64)
    (hidx : index < B / lane.bits) :
    emitLaneLoad B lane (storeAssignableLane B lane base index x) index
      = castIntegerWithSignedness lane.bits 64 lane.isSigned (x % 2 ^ lane.bits) := by
  have hWcases := parseLaneInfo_valid_bits laneSelector (by rw [hsel]; exact hvalid)
  rw [hsel] at hWcases
  have hW : 0 < lane.bits := by rcases hWcases with h | h | h | h <;> omega
  have hWle : lane.bits ≤ 64 := by rcases hWcases with h | h | h | h <;> omega
  have hBW : B / lane.bits * lane.bits = B := Nat.div_mul_cancel hdvd
  have hle : index * lane.bits + lane.bits ≤ B := by
    have h1 : index + 1 ≤ B / lane.bits := hidx
    have h2 : (index + 1) * lane.bits ≤ (B / lane.bits) * lane.bits :=
      Nat.mul_le_mul_right lane.bits h1
    have h3 : (index + 1) * lane.bits = index * lane.bits + lane.bits := by ring
    rw [hBW, h3] at h2
    omega
  have hBlt : B < 2 ^ B := Nat.lt_two_pow B
  have hidxle : index ≤ index * lane.bits := Nat.le_mul_of_pos_right index hW
  have hidx_mod : index % 2 ^ B = index := Nat.mod_eq_of_lt (by omega)
  have hshift_mod : (index * lane.bits) % 2 ^ B = index * lane.bits :=
    Nat.mod_eq_of_lt (by omega)
  have hWB : lane.bits ≤ B := by omega
  simp only [emitLaneLoad, storeAssignableLane, laneRawMask, hidx_mod, hshift_mod,
    cast_widen_unsigned lane.bits B _ hWB]
  rw [lane_extract B lane.bits (index * lane.bits) x base
      (castIntegerWithSignedness 64 lane.bits lane.isSigned x) hle ?hrl]
  case hrl =>
    intro j hj
    rw [cast_narrow64 lane.bits lane.isSigned x hWle]
    by_cases h64 : lane.bits = 64
    · simp [h64, Nat.testBit_mod_two_pow, hj, h64 ▸ hj]
    · simp [h64, Nat.testBit_mod_two_pow, hj]
  have hmm : x % 2 ^ lane.bits % 2 ^ lane.bits = x % 2 ^ lane.bits := Nat.mod_mod_of_dvd x dvd_rfl
  by_cases hWBeq : lane.bits = B <;> simp [hWBeq, hmm]


/-! ## HIR switch lowering (src/frontend/hir.cpp, LowerStmt SwitchStmt case) -/

inductive CaseChild where
  | lit (value : Int)
  | bodyStmt
deriving DecidableEq, Repr

def parseConstIntExpr : CaseChild → Except String Int
  | CaseChild.lit v => Except.ok v
  | CaseChild.bodyStmt => Except.error "switch case requires literal constants in M8"

inductive SwitchBlockItem where
  | caseClause (text : String) (children : List CaseChild)
  | defaultClause
  | stmt
deriving Repr

def lowerOneCase (text : String) (children : List CaseChild) :
    Except String (Nat × Int × Int) :=
  let flags : Nat := if text = "null-case" then 1 else if text = "range-case" then 2 else 0
  match children with
  | [] => Except.ok (flags, 0, 0)
  | c0 :: ctail =>
      match (if flags &&& 1 = 0 then parseConstIntExpr c0 else Except.ok 0) with
      | Except.error e => Except.error e
      | Except.ok b =>
          match ctail with
          | _c1 :: _ =>
              if flags &&& 2 ≠ 0 then
                match parseConstIntExpr _c1 with
                | Except.error e => Except.error e
                | Except.ok e2 => Except.ok (flags, b, e2)
              else Except.ok (flags, b, b)
          | [] => Except.ok (flags, b, b)

def lowerSwitchCaseArrays : List SwitchBlockItem → Except String (List (Nat × Int × Int))
  | [] => Except.ok []
  | SwitchBlockItem.caseClause text children :: rest =>
      match lowerOneCase text children with
      | Except.error e => Except.error e
      | Except.ok row =>
          match lowerSwitchCaseArrays rest with
          | Except.error e => Except.error e
          | Except.ok tail => Except.ok (row :: tail)
  | SwitchBlockItem.defaultClause :: rest => lowerSwitchCaseArrays rest
  | SwitchBlockItem.stmt :: rest => lowerSwitchCaseArrays rest

def resolveSwitchCasesGo (lastCaseEnd : Int) : List (Nat × Int × Int) → List (Int × Int)
  | [] => []
  | (flags, b0, e0) :: rest =>
      let b := if flags &&& 1 ≠ 0 then lastCaseEnd + 1 else b0
      let e := if flags &&& 1 ≠ 0 then b else e0
      let e := if flags &&& 2 = 0 then b else e
      (b, e) :: resolveSwitchCasesGo e rest

def resolveSwitchCases (cases : List (Nat × Int × Int)) : List (Int × Int) :=
  resolveSwitchCasesGo (-1) cases

def nullCasesResolvedFrom (lastCaseEnd : Int) :
    List (Nat × Int × Int) → List (Int × Int) → Prop
  | [], [] => True
  | (flags, _, _) :: cs, (b, e) :: rs =>
      ((flags &&& 1 ≠ 0) → b = lastCaseEnd + 1 ∧ e = b) ∧ nullCasesResolvedFrom e cs rs
  | _ :: _, [] => False
  | [], _ :: _ => False

example :
    lowerSwitchCaseArrays
        [SwitchBlockItem.caseClause "" [CaseChild.lit 5],
         SwitchBlockItem.caseClause "null-case" [CaseChild.bodyStmt]]
      = Except.ok [(0, 5, 5), (1, 0, 0)] := rfl

example :
    resolveSwitchCases [(0, 5, 5), (1, 0, 0), (1, 0, 0)] = [(5, 5), (6, 6), (7, 7)] := rfl

theorem lowerOneCase_null (text : String) (children : List CaseChild)
    (row : Nat × Int × Int) (h : lowerOneCase text children = Except.ok row)
    (hnull : row.1 &&& 1 ≠ 0) : row = (1, 0, 0) := by
  by_cases ht : text = "null-case"
  · match children with
    | [] =>
      simp [lowerOneCase, ht] at h
      simp [← h]
    | c0 :: [] =>
      simp [lowerOneCase, ht] at h
      simp [← h]
    | c0 :: c1 :: t =>
      simp [lowerOneCase, ht] at h
      simp [← h]
  · by_cases ht2 : text = "range-case"
    · match children with
      | [] =>
        simp [lowerOneCase, ht, ht2] at h
        rw [← h] at hnull
        simp at hnull
      | c0 :: ctail =>
        simp only [lowerOneCase, ht, ht2, if_false, if_true, if_neg, if_pos] at h
        cases hc0 : parseConstIntExpr c0 with
        | error e => simp [hc0] at h
        | ok v =>
          simp [hc0] at h
          match ctail with
          | [] =>
            simp at h
            rw [← h] at hnull
            simp at hnull
          | c1 :: t =>
            simp at h
            cases hc1 : parseConstIntExpr c1 with
            | error e => simp [hc1] at h
            | ok w =>
              simp [hc1] at h
              rw [← h] at hnull
              simp at hnull
    · match children with
      | [] =>
        simp [lowerOneCase, ht, ht2] at h
        rw [← h] at hnull
        simp at hnull
      | c0 :: ctail =>
        simp only [lowerOneCase, ht, ht2, if_false, if_neg, if_pos] at h
        cases hc0 : parseConstIntExpr c0 with
        | error e => simp [hc0] at h
        | ok v =>
          simp [hc0] at h
          match ctail with
          | [] =>
            simp at h
            rw [← h] at hnull
            simp at hnull
          | c1 :: t =>
            simp at h
            rw [← h] at hnull
            simp at hnull

theorem lowerSwitchCaseArrays_null (items : List SwitchBlockItem)
    (cases : List (Nat × Int × Int)) (h : lowerSwitchCaseArrays items = Except.ok cases) :
    ∀ row ∈ cases, row.1 &&& 1 ≠ 0 → row.2.1 = 0 ∧ row.2.2 = 0 := by
  induction items generalizing cases with
  | nil =>
    simp [lowerSwitchCaseArrays] at h
    subst h
    simp
  | cons item rest ih =>
    cases item with
    | caseClause text children =>
      simp only [lowerSwitchCaseArrays] at h
      cases hrow : lowerOneCase text children with
      | error e => rw [hrow] at h; exact absurd h (by simp)
      | ok row =>
        rw [hrow] at h
        cases htail : lowerSwitchCaseArrays rest with
        | error e => rw [htail] at h; exact absurd h (by simp)
        | ok tail =>
          rw [htail] at h
          simp only [Except.ok.injEq] at h
          subst h
          intro r hr hn
          rcases List.mem_cons.mp hr with hr | hr
          · subst hr
            have hrw := lowerOneCase_null text children r hrow hn
            rw [hrw]
            exact ⟨rfl, rfl⟩
          · exact ih tail htail r hr hn
    | defaultClause => exact ih cases h
    | stmt => exact ih cases h

theorem resolveSwitchCasesGo_spec (cases : List (Nat × Int × Int)) :
    ∀ lastCaseEnd, nullCasesResolvedFrom lastCaseEnd cases (resolveSwitchCasesGo lastCaseEnd cases) := by
  induction cases with
  | nil => intro lastCaseEnd; simp [resolveSwitchCasesGo, nullCasesResolvedFrom]
  | cons c rest ih =>
    intro lastCaseEnd
    rcases c with ⟨flags, b0, e0⟩
    simp only [resolveSwitchCasesGo, nullCasesResolvedFrom]
    refine ⟨?_, ih _⟩
    intro hnull
    simp only [if_pos hnull, ite_self, eq_self_iff_true]
    exact ⟨trivial, trivial⟩

/-! ## Try/catch region lowering (src/frontend/hir.cpp LowerStmt TryStmt case) -/

inductive SrcStmt where
  | skip
  | throwStmt
  | seq (a b : SrcStmt)
  | tryCatch (tryBody catchBody : SrcStmt)
deriving Repr

inductive HStmt where
  | skip
  | throwStmt (regionId : Int)
  | seq (a b : HStmt)
  | tryCatch (regionId parentRegionId : Int) (tryBody catchBody : HStmt)
deriving Repr

def lowerStmt : SrcStmt → Nat → List Int → HStmt × Nat
  | SrcStmt.skip, next, _ => (HStmt.skip, next)
  | SrcStmt.throwStmt, next, stack => (HStmt.throwStmt (stack.headD (-1)), next)
  | SrcStmt.seq a b, next, stack =>
      let ra := lowerStmt a next stack
      let rb := lowerStmt b ra.2 stack
      (HStmt.seq ra.1 rb.1, rb.2)
  | SrcStmt.tryCatch tb cb, next, stack =>
      let parent := stack.headD (-1)
      let rid : Int := (next : Int)
      let rt := lowerStmt tb (next + 1) (rid :: stack)
      let rc :=
        if 0 ≤ parent then lowerStmt cb rt.2 (parent :: stack)
        else lowerStmt cb rt.2 stack
      (HStmt.tryCatch rid parent rt.1 rc.1, rc.2)

def lowerFunctionBody (body : SrcStmt) : HStmt × Nat := lowerStmt body 1 []

def regionList : HStmt → List Int
  | HStmt.skip => []
  | HStmt.throwStmt _ => []
  | HStmt.seq a b => regionList a ++ regionList b
  | HStmt.tryCatch r _ tb cb => r :: (regionList tb ++ regionList cb)

def parentsOk (cur : Int) : HStmt → Prop
  | HStmt.skip => True
  | HStmt.throwStmt r => r = cur
  | HStmt.seq a b => parentsOk cur a ∧ parentsOk cur b
  | HStmt.tryCatch r p tb cb => p = cur ∧ parentsOk r tb ∧ parentsOk p cb

theorem range_glue_seq (next n1 n2 : Nat) (h1 : next ≤ n1) (h2 : n1 ≤ n2) :
    (List.range' next (n1 - next)).map (Nat.cast : Nat → Int) ++ (List.range' n1 (n2 - n1)).map (Nat.cast : Nat → Int)
      = (List.range' next (n2 - next)).map (Nat.cast : Nat → Int) := by
  rw [← List.map_append]
  have happ := List.range'_append next (n1 - next) (n2 - n1) 1
  simp only [one_mul, Nat.mul_one] at happ
  have harg : next + (n1 - next) = n1 := by omega
  rw [harg] at happ
  have hcount : n2 - n1 + (n1 - next) = n2 - next := by omega
  rw [happ, hcount]

theorem range_glue_try (next n1 n2 : Nat) (h1 : next + 1 ≤ n1) (h2 : n1 ≤ n2) :
    (next : Int)
        :: ((List.range' (next + 1) (n1 - (next + 1))).map (Nat.cast : Nat → Int)
            ++ (List.range' n1 (n2 - n1)).map (Nat.cast : Nat → Int))
      = (List.range' next (n2 - next)).map (Nat.cast : Nat → Int) := by
  rw [← List.map_append]
  have happ := List.range'_append (next + 1) (n1 - (next + 1)) (n2 - n1) 1
  simp only [one_mul, Nat.mul_one] at happ
  have harg : next + 1 + (n1 - (next + 1)) = n1 := by omega
  rw [harg] at happ
  have hcount : n2 - n1 + (n1 - (next + 1)) = n2 - (next + 1) := by omega
  rw [happ, hcount]
  have hsz : n2 - next = (n2 - (next + 1)) + 1 := by omega
  rw [hsz, List.range'_succ]
  simp

theorem lowerStmt_regions (s : SrcStmt) :
    ∀ next stack,
      next ≤ (lowerStmt s next stack).2 ∧
      regionList (lowerStmt s next stack).1
        = (List.range' next ((lowerStmt s next stack).2 - next)).map (Nat.cast : Nat → Int) := by
  induction s with
  | skip => intro next stack; simp [lowerStmt, regionList]
  | throwStmt => intro next stack; simp [lowerStmt, regionList]
  | seq a b iha ihb =>
    intro next stack
    obtain ⟨ha1, ha2⟩ := iha next stack
    rcases hra : lowerStmt a next stack with ⟨la, n1⟩
    rw [hra] at ha1 ha2
    obtain ⟨hb1, hb2⟩ := ihb n1 stack
    rcases hrb : lowerStmt b n1 stack with ⟨lb, n2⟩
    rw [hrb] at hb1 hb2
    simp only [lowerStmt, hra, hrb, regionList]
    refine ⟨by omega, ?_⟩
    rw [ha2, hb2]
    exact range_glue_seq next n1 n2 ha1 hb1
  | tryCatch tb cb ihtb ihcb =>
    intro next stack
    obtain ⟨ht1, ht2⟩ := ihtb (next + 1) ((next : Int) :: stack)
    rcases hrt : lowerStmt tb (next + 1) ((next : Int) :: stack) with ⟨htb, n1⟩
    rw [hrt] at ht1 ht2
    by_cases hpar : 0 ≤ stack.headD (-1)
    · obtain ⟨hc1, hc2⟩ := ihcb n1 (stack.headD (-1) :: stack)
      rcases hrc : lowerStmt cb n1 (stack.headD (-1) :: stack) with ⟨hcb, n2⟩
      rw [hrc] at hc1 hc2
      simp only [lowerStmt, hrt, if_pos hpar, hrc, regionList]
      refine ⟨by omega, ?_⟩
      rw [ht2, hc2]
      exact range_glue_try next n1 n2 ht1 hc1
    · obtain ⟨hc1, hc2⟩ := ihcb n1 stack
      rcases hrc : lowerStmt cb n1 stack with ⟨hcb, n2⟩
      rw [hrc] at hc1 hc2
      simp only [lowerStmt, hrt, if_neg hpar, hrc, regionList]
      refine ⟨by omega, ?_⟩
      rw [ht2, hc2]
      exact range_glue_try next n1 n2 ht1 hc1

theorem lowerStmt_parents (s : SrcStmt) :
    ∀ next stack, 1 ≤ next → (∀ x ∈ stack, 1 ≤ x) →
      parentsOk (stack.headD (-1)) (lowerStmt s next stack).1 := by
  induction s with
  | skip => intro next stack _ _; simp [lowerStmt, parentsOk]
  | throwStmt => intro next stack _ _; simp [lowerStmt, parentsOk]
  | seq a b iha ihb =>
    intro next stack hn hst
    have hmono := (lowerStmt_regions a next stack).1
    simp only [lowerStmt, parentsOk]
    exact ⟨iha next stack hn hst, ihb (lowerStmt a next stack).2 stack (by omega) hst⟩
  | tryCatch tb cb ihtb ihcb =>
    intro next stack hn hst
    have hmono := (lowerStmt_regions tb (next + 1) ((next : Int) :: stack)).1
    simp only [lowerStmt, parentsOk]
    refine ⟨by trivial, ?_, ?_⟩
    · have hmem : ∀ x ∈ ((next : Int) :: stack), (1 : Int) ≤ x := by
        intro x hx
        rcases List.mem_cons.mp hx with hx | hx
        · rw [hx]; omega
        · exact hst x hx
      have := ihtb (next + 1) ((next : Int) :: stack) (by omega) hmem
      simpa using this
    · by_cases hpar : 0 ≤ stack.headD (-1)
      · rw [if_pos hpar]
        cases stack with
        | nil => simp at hpar
        | cons hhd ttl =>
          have hh1 : (1 : Int) ≤ hhd := hst hhd (List.mem_cons_self _ _)
          have hmem2 : ∀ x ∈ (List.headD (hhd :: ttl) (-1) :: hhd :: ttl), (1 : Int) ≤ x := by
            intro x hx
            rcases List.mem_cons.mp hx with hx | hx
            · rw [hx]; simpa using hh1
            · exact hst x hx
          have := ihcb (lowerStmt tb (next + 1) ((next : Int) :: hhd :: ttl)).2
              (List.headD (hhd :: ttl) (-1) :: hhd :: ttl) (by omega) hmem2
          simpa using this
      · rw [if_neg hpar]
        cases stack with
        | nil =>
          have := ihcb (lowerStmt tb (next + 1) ((next : Int) :: ([] : List Int))).2 []
              (by omega) (by intro x hx; simp at hx)
          simpa using this
        | cons hhd ttl =>
          have hh1 : (1 : Int) ≤ hhd := hst hhd (List.mem_cons_self _ _)
          exact absurd (by simpa using le_trans (by omega) hh1) hpar

theorem lowerFunctionBody_spec (body : SrcStmt) :
    regionList (lowerFunctionBody body).1
        = (List.range' 1 ((lowerFunctionBody body).2 - 1)).map (Nat.cast : Nat → Int)
      ∧ (∀ r ∈ regionList (lowerFunctionBody body).1, 0 < r)
      ∧ (regionList (lowerFunctionBody body).1).Nodup
      ∧ parentsOk (-1) (lowerFunctionBody body).1 := by
  simp only [lowerFunctionBody]
  obtain ⟨h1, h2⟩ := lowerStmt_regions body 1 []
  refine ⟨h2, ?_, ?_, ?_⟩
  · intro r hr
    rw [h2] at hr
    rcases List.mem_map.mp hr with ⟨m, hm, hmr⟩
    have := (List.mem_range'_1.mp hm).1
    omega
  · rw [h2]
    exact (List.nodup_range' _ _).map (fun a b hab => by exact_mod_cast hab)
  · have := lowerStmt_parents body 1 [] (by omega) (by intro x hx; simp at hx)
    simpa using this

/-! ## Claim theorems -/

/-- Claim C10: `FormatDiagnostic` omits the bracketed `[code]` when the code is
empty, omits the entire `file:line:col:` segment when the file is empty, omits
the line (and column) unless `0 < line`, omits the column unless `0 < column`,
and appends the `help:` line exactly when the remediation is non-empty;
otherwise the output is `severity[code]: file:line:col: message`. -/
theorem formatDiagnostic_edge_cases (d : Diagnostic) :
    formatDiagnostic d =
      (if d.severity = DiagnosticSeverity.kWarning then "warning"
        else if d.severity = DiagnosticSeverity.kNote then "note" else "error")
      ++ (if d.code = "" then "" else "[" ++ d.code ++ "]")
      ++ ": "
      ++ (if d.file = "" then ""
          else d.file
            ++ (if 0 < d.line then
                  ":" ++ toString d.line
                    ++ (if 0 < d.column then ":" ++ toString d.column else "")
                else "")
            ++ ": ")
      ++ d.message
      ++ (if d.remediation = "" then "" else "\nhelp: " ++ d.remediation) := by
  unfold formatDiagnostic
  by_cases hc : d.code = "" <;> by_cases hf : d.file = "" <;>
    by_cases hl : 0 < d.line <;> by_cases hcol : 0 < d.column <;>
    by_cases hr : d.remediation = "" <;>
    simp [hc, hf, hl, hcol, hr, String.append_assoc, String.append_empty,
      String.empty_append]

/-- Claim C1: lane round-trip.  For a valid lane selector of width `W` with
`W ∣ B`, `B ≤ 64` and an in-range index, storing `x` into the lane and loading
the same lane back yields `x` masked to `W` bits and sign-extended
(signed selectors) or zero-extended (unsigned selectors) to 64 bits; the load
computes `(base >> (index * lane_bits)) & lane_mask` and the store is the
clear-then-OR read-modify-write of `StoreAssignable`. -/
theorem lane_round_trip_c1 (laneSelector : String) (lane : LaneInfo)
    (hsel : parseLaneInfo laneSelector = lane) (hvalid : lane.valid = true)
    (B index x base : Nat) (hdvd : lane.bits ∣ B) (hB : B ≤ 64)
    (hidx : index < B / lane.bits) :
    emitLaneLoad B lane (storeAssignableLane B lane base index x) index
      = castIntegerWithSignedness lane.bits 64 lane.isSigned (x % 2 ^ lane.bits) :=
  lane_round_trip laneSelector lane hsel hvalid B index x base hdvd hB hidx

/-- Witness for claim C1 at `v.i16[2]` on a 64-bit base: stores `0x8001` and
loads back its 16-bit value sign-extended to 64 bits. -/
theorem lane_round_trip_c1_witness :
    (parseLaneInfo "i16").valid = true ∧
    emitLaneLoad 64 (parseLaneInfo "i16")
        (storeAssignableLane 64 (parseLaneInfo "i16") 0x123456789ABCDEF0 2 0x8001) 2
      = castIntegerWithSignedness (parseLaneInfo "i16").bits 64
          (parseLaneInfo "i16").isSigned (0x8001 % 2 ^ (parseLaneInfo "i16").bits) :=
  ⟨by decide,
    lane_round_trip_c1 "i16" (parseLaneInfo "i16") rfl (by decide) 64 2 0x8001
      0x123456789ABCDEF0 (by decide) (by decide) (by decide)⟩

/-- Claim C2 counterexample: lowering `switch` cases `case 5:` followed by a
null-case leaves the null-case row in the HIR parallel arrays as
`(flags, begin, end) = (1, 0, 0)`; its `begin` is `0`, not the previous
case's end plus one (`6`), so the HIR lowerer does not assign
`begin = last_end + 1`. -/
theorem switch_null_case_counterexample :
    (lowerSwitchCaseArrays
        [SwitchBlockItem.caseClause "" [CaseChild.lit 5],
         SwitchBlockItem.caseClause "null-case" [CaseChild.bodyStmt]]
      = Except.ok [(0, 5, 5), (1, 0, 0)])
    ∧ ¬ (((1 : Nat) &&& 1 ≠ 0) → (0 : Int) = 5 + 1) :=
  ⟨rfl, by decide⟩

/-- Claim C2 (amended): the HIR lowerer stores `(flags, begin, end) = (1, 0, 0)`
for every null-case in the switch parallel arrays; the `begin = last_end + 1`
resolution happens at emit time in `EmitSwitchStmt`, where each null-case's
effective begin is the previous case's effective (resolved) end plus one,
starting from `-1`, and its effective end equals its begin. -/
theorem switch_null_case_semantics (items : List SwitchBlockItem)
    (cases : List (Nat × Int × Int)) (h : lowerSwitchCaseArrays items = Except.ok cases) :
    (∀ row ∈ cases, row.1 &&& 1 ≠ 0 → row.2.1 = 0 ∧ row.2.2 = 0)
      ∧ nullCasesResolvedFrom (-1) cases (resolveSwitchCases cases) :=
  ⟨lowerSwitchCaseArrays_null items cases h, resolveSwitchCasesGo_spec cases (-1)⟩

/-- Witness for claim C2's amended theorem on `case 5:` + two null-cases. -/
theorem switch_null_case_semantics_witness :
    (∀ row ∈ [((0 : Nat), (5 : Int), (5 : Int)), (1, 0, 0), (1, 0, 0)],
        row.1 &&& 1 ≠ 0 → row.2.1 = 0 ∧ row.2.2 = 0)
      ∧ nullCasesResolvedFrom (-1) [((0 : Nat), (5 : Int), (5 : Int)), (1, 0, 0), (1, 0, 0)]
          (resolveSwitchCases [((0 : Nat), (5 : Int), (5 : Int)), (1, 0, 0), (1, 0, 0)]) :=
  switch_null_case_semantics
    [SwitchBlockItem.caseClause "" [CaseChild.lit 5],
     SwitchBlockItem.caseClause "null-case" [CaseChild.bodyStmt],
     SwitchBlockItem.caseClause "null-case" [CaseChild.bodyStmt]]
    [((0 : Nat), (5 : Int), (5 : Int)), (1, 0, 0), (1, 0, 0)] rfl

/-- Claim C3: within a function (region counter reset to 1, empty region
stack), TryCatch region ids are assigned depth-first in pre-order — the
pre-order listing of region ids is exactly `1, 2, …` — hence strictly positive
and unique; each TryCatch's `parent_region_id` is the enclosing region's id or
`-1` at function root; and the catch body is lowered with the parent region
current, so a throw inside a catch belongs to the next-outer region. -/
theorem try_region_ids_spec (body : SrcStmt) :
    regionList (lowerFunctionBody body).1
        = (List.range' 1 ((lowerFunctionBody body).2 - 1)).map (Nat.cast : Nat → Int)
      ∧ (∀ r ∈ regionList (lowerFunctionBody body).1, 0 < r)
      ∧ (regionList (lowerFunctionBody body).1).Nodup
      ∧ parentsOk (-1) (lowerFunctionBody body).1 :=
  lowerFunctionBody_spec body

/-! ## Semantic analyzer (src/frontend/sema.cpp): type machinery -/

/-- The `std::isspace` character set (C locale), as used by the sema trims. -/
def isSpaceChar (c : Char) : Bool :=
  c = ' ' ∨ c = '\t' ∨ c = '\n' ∨ c = '\x0b' ∨ c = '\x0c' ∨ c = '\r'

/-- `TrimCopy` / `TrimSpaces`: strip leading and trailing whitespace. -/
def trimCopy (s : String) : String :=
  String.mk (((s.data.dropWhile isSpaceChar).reverse.dropWhile isSpaceChar).reverse)

/-- `HasPointerMarker`: the type string mentions `*` anywhere. -/
def hasPointerMarker (typeName : String) : Bool := typeName.data.contains '*'

/-- `ValueKind` from the semantic analyzer. -/
inductive ValueKind where
  | kUnknown
  | kBool
  | kInt
  | kUInt
  | kFloat
  | kPointer
deriving DecidableEq, Repr

/-- `TypeInfo` from the semantic analyzer. -/
structure TypeInfo where
  kind : ValueKind := ValueKind.kUnknown
  bits : Nat := 0
deriving DecidableEq, Repr

/-- `ParseTypeInfo`: classify a type string. -/
def parseTypeInfo (typeName : String) : TypeInfo :=
  let ty := trimCopy typeName
  if ty = "" then { }
  else if hasPointerMarker ty then { kind := ValueKind.kPointer, bits := 64 }
  else if ty = "Bool" ∨ ty = "Bool(chained)" then { kind := ValueKind.kBool, bits := 1 }
  else if ty = "F64" then { kind := ValueKind.kFloat, bits := 64 }
  else if ty = "I8" then { kind := ValueKind.kInt, bits := 8 }
  else if ty = "U8" then { kind := ValueKind.kUInt, bits := 8 }
  else if ty = "I16" then { kind := ValueKind.kInt, bits := 16 }
  else if ty = "U16" then { kind := ValueKind.kUInt, bits := 16 }
  else if ty = "I32" then { kind := ValueKind.kInt, bits := 32 }
  else if ty = "U32" then { kind := ValueKind.kUInt, bits := 32 }
  else if ty = "I64" then { kind := ValueKind.kInt, bits := 64 }
  else if ty = "U64" then { kind := ValueKind.kUInt, bits := 64 }
  else { }

/-- `EstimateTypeSize`: 8 bytes for pointers and unknown (including
aggregate-typed) fields, 8 for `F64`, and 1/2/4/8 by integer width. -/
def estimateTypeSize (typeName : String) : Nat :=
  let info := parseTypeInfo typeName
  if info.kind = ValueKind.kPointer ∨ info.kind = ValueKind.kUnknown then 8
  else if info.kind = ValueKind.kFloat then 8
  else if info.bits ≤ 8 then 1
  else if info.bits ≤ 16 then 2
  else if info.bits ≤ 32 then 4
  else 8

/-- `IsNumeric`. -/
def isNumeric (info : TypeInfo) : Bool :=
  info.kind = ValueKind.kBool ∨ info.kind = ValueKind.kInt ∨
  info.kind = ValueKind.kUInt ∨ info.kind = ValueKind.kFloat

/-- `IsIntegralLike`. -/
def isIntegralLike (info : TypeInfo) : Bool :=
  info.kind = ValueKind.kBool ∨ info.kind = ValueKind.kInt ∨ info.kind = ValueKind.kUInt

/-- `IsRelationalOp`: `<`, `>`, `<=`, `>=` (equality is not relational). -/
def isRelationalOp (op : String) : Bool :=
  op = "<" ∨ op = ">" ∨ op = "<=" ∨ op = ">="

/-- `PromoteIntegerResultType`: 64-bit-centric integer promotion. -/
def promoteIntegerResultType (lhsType rhsType : String) : String :=
  let lhs := parseTypeInfo lhsType
  let rhs := parseTypeInfo rhsType
  if ¬ (isIntegralLike lhs ∧ isIntegralLike rhs) then "I64"
  else if lhs.kind = ValueKind.kUInt ∨ rhs.kind = ValueKind.kUInt then "U64"
  else "I64"

/-- `CanImplicitConvert`. -/
def canImplicitConvert (fromType toType : String) : Bool :=
  let fromInfo := parseTypeInfo fromType
  let toInfo := parseTypeInfo toType
  if fromInfo.kind = ValueKind.kUnknown ∨ toInfo.kind = ValueKind.kUnknown then true
  else if fromInfo.kind = toInfo.kind then true
  else if isNumeric fromInfo ∧ isNumeric toInfo then true
  else
    let fromIntegral := fromInfo.kind = ValueKind.kBool ∨ fromInfo.kind = ValueKind.kInt ∨
      fromInfo.kind = ValueKind.kUInt
    let toIntegral := toInfo.kind = ValueKind.kBool ∨ toInfo.kind = ValueKind.kInt ∨
      toInfo.kind = ValueKind.kUInt
    (fromInfo.kind = ValueKind.kPointer ∧ toIntegral) ∨
    (toInfo.kind = ValueKind.kPointer ∧ fromIntegral)

/-- `operator>>`-style whitespace tokenization used by the modifier helpers. -/
def splitWsGo : List Char → List Char → List (List Char)
  | [], cur => if cur = [] then [] else [cur.reverse]
  | c :: rest, cur =>
      if isSpaceChar c then
        (if cur = [] then splitWsGo rest [] else cur.reverse :: splitWsGo rest [])
      else splitWsGo rest (c :: cur)

/-- Whitespace-separated tokens of a string (`std::istringstream >> token`). -/
def splitTokens (s : String) : List String := (splitWsGo s.data []).map String.mk

/-- `kCompatModifiers` of `StripDeclModifiers`. -/
def kCompatModifiers : List String :=
  ["public", "interrupt", "noreg", "reg", "no_warn",
   "static", "extern", "import", "_extern", "_import", "export", "_export"]

/-- `StripDeclModifiers`: drop modifier tokens and re-join with single spaces. -/
def stripDeclModifiers (declText : String) : String :=
  String.intercalate " "
    ((splitTokens (trimCopy declText)).filter (fun t => ¬ kCompatModifiers.contains t))

/-- `kPermissiveOnlyModifiers` of `IsPermissiveOnlyModifier`. -/
def kPermissiveOnlyModifiers : List String :=
  ["public", "interrupt", "noreg", "reg", "no_warn", "_extern", "_import", "_export"]

/-- `ValidateDeclModifiers`: in strict mode, reject the first permissive-only
modifier token. -/
def validateDeclModifiers (strictMode : Bool) (declText context : String) :
    Except String Unit :=
  if ¬ strictMode then Except.ok ()
  else
    match (splitTokens (trimCopy declText)).find?
        (fun t => kPermissiveOnlyModifiers.contains t) with
    | some token =>
        Except.error ("strict mode rejects compatibility modifier '" ++ token ++ "' in "
          ++ context ++ "; pass --permissive to enable it")
    | none => Except.ok ()

/-! ## Aggregate collection (src/frontend/sema.cpp, ClassDecl branch of
CollectGlobalSymbols) -/

/-- The per-field loop of the `ClassDecl` collection: fields arrive as
`(field_type, field_name)` pairs (the `ParseTypedNameFromNode` results of the
`FieldDecl` children); empty names are skipped; duplicate names are rejected;
union fields all take offset 0 and the layout is the running maximum of the
field sizes, non-union fields take the running offset which then advances by
the estimated field size, and the layout follows the running offset. -/
def collectClassFieldsGo (strictMode isUnion : Bool) (className : String) :
    List (String × String) → List (String × String) → List (String × Nat) → Nat → Nat →
    Except String (List (String × String) × List (String × Nat) × Nat)
  | [], members, offsets, layoutSize, _ => Except.ok (members, offsets, layoutSize)
  | (fieldTy, fieldName) :: rest, members, offsets, layoutSize, runningOffset =>
      if fieldName = "" then
        collectClassFieldsGo strictMode isUnion className rest members offsets layoutSize
          runningOffset
      else
        match validateDeclModifiers strictMode fieldTy "field declaration" with
        | Except.error e => Except.error e
        | Except.ok () =>
            if members.any (fun m => m.1 = fieldName) then
              Except.error ("duplicate field in " ++ className ++ ": " ++ fieldName)
            else
              let normalized := stripDeclModifiers fieldTy
              let memberTy := if normalized = "" then "I64" else normalized
              let members := members ++ [(fieldName, memberTy)]
              if isUnion then
                collectClassFieldsGo strictMode isUnion className rest members
                  (offsets ++ [(fieldName, 0)])
                  (max layoutSize (estimateTypeSize memberTy)) runningOffset
              else
                collectClassFieldsGo strictMode isUnion className rest members
                  (offsets ++ [(fieldName, runningOffset)])
                  (runningOffset + estimateTypeSize memberTy)
                  (runningOffset + estimateTypeSize memberTy)

/-- Collect one class/union declaration's member table, offset table and
layout size, starting from empty tables. -/
def collectClass (strictMode isUnion : Bool) (className : String)
    (fields : List (String × String)) :
    Except String (List (String × String) × List (String × Nat) × Nat) :=
  collectClassFieldsGo strictMode isUnion className fields [] [] 0 0

example :
    collectClass false false "A" [("I8", "a"), ("I8", "b")]
      = Except.ok ([("a", "I8"), ("b", "I8")], [("a", 0), ("b", 1)], 2) := rfl

example :
    collectClass false false "B" [("A", "inner"), ("I8", "c")]
      = Except.ok ([("inner", "A"), ("c", "I8")], [("inner", 0), ("c", 8)], 9) := rfl

example :
    collectClass false true "U" [("I8", "a"), ("F64", "b"), ("I16", "c")]
      = Except.ok ([("a", "I8"), ("b", "F64"), ("c", "I16")],
          [("a", 0), ("b", 0), ("c", 0)], 8) := rfl

example :
    collectClass false false "D" [("I8", "a"), ("I8", "a")]
      = Except.error "duplicate field in D: a" := rfl

/-- Offset contract for non-union aggregates: each field's offset is the prefix
sum of the preceding fields' estimated sizes, starting from `running`. -/
def offsetsSpec (running : Nat) : List (String × String) → List (String × Nat) → Prop
  | [], [] => True
  | (name, ty) :: ms, (oname, off) :: os =>
      oname = name ∧ off = running ∧ offsetsSpec (running + estimateTypeSize ty) ms os
  | _, _ => False

theorem collect_nonunion_go (strict : Bool) (cn : String) (fields : List (String × String)) :
    ∀ members offsets runningOffset m o s,
      collectClassFieldsGo strict false cn fields members offsets runningOffset runningOffset
          = Except.ok (m, o, s) →
      ∃ newm newo,
        m = members ++ newm ∧ o = offsets ++ newo ∧
        offsetsSpec runningOffset newm newo ∧
        s = runningOffset + (newm.map (fun p => estimateTypeSize p.2)).sum ∧
        (newm.map Prod.fst).Nodup ∧
        (∀ n ∈ newm.map Prod.fst, ¬ members.any (fun mm => mm.1 = n)) := by
  induction fields with
  | nil =>
    intro members offsets runningOffset m o s h
    simp only [collectClassFieldsGo, Except.ok.injEq] at h
    refine ⟨[], [], ?_, ?_, ?_, ?_, ?_, ?_⟩ <;> simp_all [offsetsSpec]
  | cons field rest ih =>
    intro members offsets runningOffset m o s h
    rcases field with ⟨fieldTy, fieldName⟩
    simp only [collectClassFieldsGo] at h
    by_cases hempty : fieldName = ""
    · rw [if_pos hempty] at h
      obtain ⟨newm, newo, h1, h2, h3, h4, h5, h6⟩ := ih members offsets runningOffset m o s h
      exact ⟨newm, newo, h1, h2, h3, h4, h5, h6⟩
    · rw [if_neg hempty] at h
      cases hv : validateDeclModifiers strict fieldTy "field declaration" with
      | error e => rw [hv] at h; exact absurd h (by simp)
      | ok u =>
        rw [hv] at h
        by_cases hdup : members.any (fun mm => mm.1 = fieldName)
        · rw [if_pos hdup] at h; exact absurd h (by simp)
        · rw [if_neg hdup] at h
          simp only [if_neg (by simp : ¬ false = true)] at h
          set memberTy :=
            (if stripDeclModifiers fieldTy = "" then "I64" else stripDeclModifiers fieldTy)
            with hmty
          obtain ⟨newm, newo, h1, h2, h3, h4, h5, h6⟩ :=
            ih (members ++ [(fieldName, memberTy)]) (offsets ++ [(fieldName, runningOffset)])
              (runningOffset + estimateTypeSize memberTy) m o s h
          refine ⟨(fieldName, memberTy) :: newm, (fieldName, runningOffset) :: newo,
            ?_, ?_, ?_, ?_, ?_, ?_⟩
          · simpa using h1
          · simpa using h2
          · exact ⟨rfl, rfl, h3⟩
          · simp only [List.map_cons, List.sum_cons]
            omega
          · simp only [List.map_cons, List.nodup_cons]
            refine ⟨?_, h5⟩
            intro hmem
            have := h6 fieldName hmem
            simp at this
          · intro n hn
            simp only [List.map_cons, List.mem_cons] at hn
            rcases hn with hn | hn
            · subst hn
              exact hdup
            · have := h6 n hn
              intro hc
              apply this
              simp only [List.any_append, Bool.or_eq_true]
              exact Or.inl hc

theorem collect_union_go (strict : Bool) (cn : String) (fields : List (String × String)) :
    ∀ members offsets layoutSize runningOffset m o s,
      collectClassFieldsGo strict true cn fields members offsets layoutSize runningOffset
          = Except.ok (m, o, s) →
      ∃ newm newo,
        m = members ++ newm ∧ o = offsets ++ newo ∧
        newo.map Prod.fst = newm.map Prod.fst ∧
        (∀ x ∈ newo, x.2 = 0) ∧
        s = (newm.map (fun p => estimateTypeSize p.2)).foldl max layoutSize ∧
        (newm.map Prod.fst).Nodup ∧
        (∀ n ∈ newm.map Prod.fst, ¬ members.any (fun mm => mm.1 = n)) := by
  induction fields with
  | nil =>
    intro members offsets layoutSize runningOffset m o s h
    simp only [collectClassFieldsGo, Except.ok.injEq] at h
    refine ⟨[], [], ?_, ?_, ?_, ?_, ?_, ?_, ?_⟩ <;> simp_all
  | cons field rest ih =>
    intro members offsets layoutSize runningOffset m o s h
    rcases field with ⟨fieldTy, fieldName⟩
    simp only [collectClassFieldsGo] at h
    by_cases hempty : fieldName = ""
    · rw [if_pos hempty] at h
      exact ih members offsets layoutSize runningOffset m o s h
    · rw [if_neg hempty] at h
      cases hv : validateDeclModifiers strict fieldTy "field declaration" with
      | error e => rw [hv] at h; exact absurd h (by simp)
      | ok u =>
        rw [hv] at h
        by_cases hdup : members.any (fun mm => mm.1 = fieldName)
        · rw [if_pos hdup] at h; exact absurd h (by simp)
        · rw [if_neg hdup] at h
          simp only [if_pos rfl] at h
          set memberTy :=
            (if stripDeclModifiers fieldTy = "" then "I64" else stripDeclModifiers fieldTy)
            with hmty
          obtain ⟨newm, newo, h1, h2, h3, h4, h5, h6, h7⟩ :=
            ih (members ++ [(fieldName, memberTy)]) (offsets ++ [(fieldName, 0)])
              (max layoutSize (estimateTypeSize memberTy)) runningOffset m o s h
          refine ⟨(fieldName, memberTy) :: newm, (fieldName, 0) :: newo,
            ?_, ?_, ?_, ?_, ?_, ?_, ?_⟩
          · simpa using h1
          · simpa using h2
          · simpa using h3
          · intro x hx
            rcases List.mem_cons.mp hx with hx | hx
            · rw [hx]
            · exact h4 x hx
          · simpa using h5
          · simp only [List.map_cons, List.nodup_cons]
            refine ⟨?_, h6⟩
            intro hmem
            have := h7 fieldName hmem
            simp at this
          · intro n hn
            simp only [List.map_cons, List.mem_cons] at hn
            rcases hn with hn | hn
            · subst hn
              exact hdup
            · have := h7 n hn
              intro hc
              apply this
              simp only [List.any_append, Bool.or_eq_true]
              exact Or.inl hc

/-- Claim C7 counterexample: sema sizes a struct-typed field at 8 bytes
(`EstimateTypeSize` returns 8 for unknown kinds) rather than recursively
aggregating the struct's own layout.  `class A { I8 a; I8 b; }` has layout
size 2, yet in `class B { A inner; I8 c; }` the field `c` gets offset 8,
not 2. -/
theorem class_layout_counterexample :
    collectClass false false "A" [("I8", "a"), ("I8", "b")]
        = Except.ok ([("a", "I8"), ("b", "I8")], [("a", 0), ("b", 1)], 2)
    ∧ collectClass false false "B" [("A", "inner"), ("I8", "c")]
        = Except.ok ([("inner", "A"), ("c", "I8")], [("inner", 0), ("c", 8)], 9)
    ∧ (8 : Nat) ≠ 2 :=
  ⟨rfl, rfl, by decide⟩

/-- Claim C7 (amended): for every accepted class or union declaration, field
names are unique (duplicates rejected); in a non-union each field's offset is
the prefix sum of the preceding fields' estimated sizes and the layout size is
their total, where sizes are 1/2/4/8 bytes for I8/U8, I16/U16, I32/U32,
I64/U64, 8 for F64 and pointers, and 8 for every other type name (including
struct-typed fields — sema does not recurse into aggregate layouts); in a
union every offset is 0 and the layout size is the maximum field size. -/
theorem class_layout_spec (strictMode isUnion : Bool) (className : String)
    (fields : List (String × String)) (m : List (String × String))
    (o : List (String × Nat)) (s : Nat)
    (h : collectClass strictMode isUnion className fields = Except.ok (m, o, s)) :
    (m.map Prod.fst).Nodup
    ∧ (isUnion = true →
        o.map Prod.fst = m.map Prod.fst ∧ (∀ x ∈ o, x.2 = 0) ∧
        s = (m.map (fun p => estimateTypeSize p.2)).foldl max 0)
    ∧ (isUnion = false →
        offsetsSpec 0 m o ∧ s = (m.map (fun p => estimateTypeSize p.2)).sum)
    ∧ estimateTypeSize "I8" = 1 ∧ estimateTypeSize "U8" = 1
    ∧ estimateTypeSize "I16" = 2 ∧ estimateTypeSize "U16" = 2
    ∧ estimateTypeSize "I32" = 4 ∧ estimateTypeSize "U32" = 4
    ∧ estimateTypeSize "I64" = 8 ∧ estimateTypeSize "U64" = 8
    ∧ estimateTypeSize "F64" = 8 ∧ estimateTypeSize "U8*" = 8
    ∧ (∀ t, (parseTypeInfo t).kind = ValueKind.kUnknown → estimateTypeSize t = 8) := by
  cases isUnion with
  | true =>
    obtain ⟨newm, newo, h1, h2, h3, h4, h5, h6, h7⟩ :=
      collect_union_go strictMode className fields [] [] 0 0 m o s h
    simp only [List.nil_append] at h1 h2
    subst h1
    subst h2
    refine ⟨h6, fun _ => ⟨h3, h4, h5⟩, fun hc => by simp at hc, ?_⟩
    refine ⟨rfl, rfl, rfl, rfl, rfl, rfl, rfl, rfl, rfl, rfl, ?_⟩
    intro t ht
    simp [estimateTypeSize, ht]
  | false =>
    obtain ⟨newm, newo, h1, h2, h3, h4, h5, h6⟩ :=
      collect_nonunion_go strictMode className fields [] [] 0 m o s h
    simp only [List.nil_append] at h1 h2
    subst h1
    subst h2
    refine ⟨h5, fun hc => by simp at hc, fun _ => ⟨h3, by omega⟩, ?_⟩
    refine ⟨rfl, rfl, rfl, rfl, rfl, rfl, rfl, rfl, rfl, rfl, ?_⟩
    intro t ht
    simp [estimateTypeSize, ht]

/-- Witness for claim C7's amended theorem on a union with three fields. -/
theorem class_layout_spec_witness :
    ([("a", "I8"), ("b", "F64"), ("c", "I16")].map
        (Prod.fst (α := String) (β := String))).Nodup
    ∧ (true = true →
        ([("a", 0), ("b", 0), ("c", 0)].map (Prod.fst (α := String) (β := Nat)))
            = ([("a", "I8"), ("b", "F64"), ("c", "I16")].map Prod.fst)
          ∧ (∀ x ∈ [("a", 0), ("b", 0), ("c", 0)], x.2 = 0)
          ∧ (8 : Nat) = ([("a", "I8"), ("b", "F64"), ("c", "I16")].map
              (fun p => estimateTypeSize p.2)).foldl max 0)
    ∧ (true = false →
        offsetsSpec 0 [("a", "I8"), ("b", "F64"), ("c", "I16")] [("a", 0), ("b", 0), ("c", 0)]
          ∧ (8 : Nat) = ([("a", "I8"), ("b", "F64"), ("c", "I16")].map
              (fun p => estimateTypeSize p.2)).sum)
    ∧ estimateTypeSize "I8" = 1 ∧ estimateTypeSize "U8" = 1
    ∧ estimateTypeSize "I16" = 2 ∧ estimateTypeSize "U16" = 2
    ∧ estimateTypeSize "I32" = 4 ∧ estimateTypeSize "U32" = 4
    ∧ estimateTypeSize "I64" = 8 ∧ estimateTypeSize "U64" = 8
    ∧ estimateTypeSize "F64" = 8 ∧ estimateTypeSize "U8*" = 8
    ∧ (∀ t, (parseTypeInfo t).kind = ValueKind.kUnknown → estimateTypeSize t = 8) :=
  class_layout_spec false true "U" [("I8", "a"), ("F64", "b"), ("I16", "c")]
    [("a", "I8"), ("b", "F64"), ("c", "I16")] [("a", 0), ("b", 0), ("c", 0)] 8 rfl

/-! ## Expression typing (src/frontend/sema.cpp AnalyzeExpr, Literal and
BinaryExpr kinds) -/

/-- The expression subtree shapes needed for the comparison-typing rules:
`Literal` nodes (with their raw text) and `BinaryExpr` nodes (with their
operator text). -/
inductive PNode where
  | literal (text : String)
  | binaryExpr (text : String) (lhs rhs : PNode)
deriving DecidableEq, Repr

/-- The `Literal` branch of `AnalyzeExpr`: strings are `U8*`, char literals
`I64`, decimals with a dot `F64`, anything else `I64`. -/
def analyzeLiteralType (text : String) : String :=
  match text.data with
  | [] => if ([] : List Char).contains '.' then "F64" else "I64"
  | c :: _ =>
      if c = '"' then "U8*"
      else if c = '\'' then "I64"
      else if text.data.contains '.' then "F64"
      else "I64"

/-- Whether a node is a `BinaryExpr` whose operator is relational — the
chained-comparison test of `AnalyzeExpr`. -/
def isBinaryWithRelationalOp : PNode → Bool
  | PNode.binaryExpr text _ _ => isRelationalOp text
  | _ => false

/-- `AnalyzeExpr` restricted to `Literal` and `BinaryExpr` nodes: comparison,
logical, pointer-arithmetic, bitwise/shift and promoted-arithmetic typing. -/
def analyzeExpr : PNode → Except String String
  | PNode.literal text => Except.ok (analyzeLiteralType text)
  | PNode.binaryExpr op lhs rhs =>
      match analyzeExpr lhs with
      | Except.error e => Except.error e
      | Except.ok lhsTy =>
          match analyzeExpr rhs with
          | Except.error e => Except.error e
          | Except.ok rhsTy =>
              let lhsInfo := parseTypeInfo lhsTy
              let rhsInfo := parseTypeInfo rhsTy
              if isRelationalOp op ∨ op = "==" ∨ op = "!=" then
                if ¬ canImplicitConvert lhsTy rhsTy ∧ ¬ canImplicitConvert rhsTy lhsTy then
                  Except.error ("comparison requires implicitly comparable operands: "
                    ++ lhsTy ++ " vs " ++ rhsTy)
                else
                  Except.ok (if isBinaryWithRelationalOp lhs then "Bool(chained)" else "Bool")
              else if op = "&&" ∨ op = "||" then
                if (¬ isNumeric lhsInfo ∧ lhsInfo.kind ≠ ValueKind.kPointer ∧
                      lhsInfo.kind ≠ ValueKind.kUnknown) ∨
                    (¬ isNumeric rhsInfo ∧ rhsInfo.kind ≠ ValueKind.kPointer ∧
                      rhsInfo.kind ≠ ValueKind.kUnknown) then
                  Except.error "logical operators require scalar operands"
                else Except.ok "Bool"
              else
                if ¬ canImplicitConvert lhsTy rhsTy ∧ ¬ canImplicitConvert rhsTy lhsTy then
                  Except.error ("binary operator " ++ op ++ " requires compatible operands: "
                    ++ lhsTy ++ " vs " ++ rhsTy)
                else if op = "+" ∨ op = "-" ∨ op = "*" ∨ op = "/" ∨ op = "%" then
                  let lhsPtr := lhsInfo.kind = ValueKind.kPointer
                  let rhsPtr := rhsInfo.kind = ValueKind.kPointer
                  if lhsPtr ∨ rhsPtr then
                    if op = "+" then
                      if lhsPtr ∧ isIntegralLike rhsInfo then Except.ok lhsTy
                      else if rhsPtr ∧ isIntegralLike lhsInfo then Except.ok rhsTy
                      else Except.error "pointer addition requires one pointer and one integer operand"
                    else if op = "-" then
                      if lhsPtr ∧ isIntegralLike rhsInfo then Except.ok lhsTy
                      else if lhsPtr ∧ rhsPtr then Except.ok "I64"
                      else Except.error "pointer subtraction requires pointer-int or pointer-pointer"
                    else Except.error "pointer arithmetic supports only + and -"
                  else Except.ok (promoteIntegerResultType lhsTy rhsTy)
                else if op = "&" ∨ op = "|" ∨ op = "^" ∨ op = "<<" ∨ op = ">>" then
                  if ¬ isIntegralLike lhsInfo ∨ ¬ isIntegralLike rhsInfo then
                    Except.error "bitwise/shift operators require integral operands"
                  else Except.ok (promoteIntegerResultType lhsTy rhsTy)
                else Except.ok (promoteIntegerResultType lhsTy rhsTy)

example :
    analyzeExpr (PNode.binaryExpr "=="
        (PNode.binaryExpr "<" (PNode.literal "1") (PNode.literal "2")) (PNode.literal "3"))
      = Except.ok "Bool(chained)" := rfl

example :
    analyzeExpr (PNode.binaryExpr "=="
        (PNode.binaryExpr "==" (PNode.literal "1") (PNode.literal "2")) (PNode.literal "3"))
      = Except.ok "Bool" := rfl

/-- Claim C8 counterexample: a comparison whose lhs is itself an equality
comparison (`(1 == 2) == 3`) is typed plain `Bool`, not `Bool(chained)`:
`IsRelationalOp` covers only `< > <= >=`, so equality operators as lhs do not
trigger the chained-comparison type. -/
theorem comparison_chain_counterexample :
    analyzeExpr (PNode.binaryExpr "=="
        (PNode.binaryExpr "==" (PNode.literal "1") (PNode.literal "2")) (PNode.literal "3"))
        = Except.ok "Bool"
    ∧ "Bool" ≠ "Bool(chained)"
    ∧ isBinaryWithRelationalOp
        (PNode.binaryExpr "==" (PNode.literal "1") (PNode.literal "2")) = false :=
  ⟨rfl, by decide, rfl⟩

/-- Claim C8 (amended): every accepted comparison (`== != < <= > >=`) is typed
`Bool`, except that it is typed `Bool(chained)` exactly when the lhs operand is
a `BinaryExpr` whose operator is relational (`< <= > >=`); an equality
comparison (`==`/`!=`) as lhs yields plain `Bool`. -/
theorem comparison_result_type (op : String) (lhs rhs : PNode) (t : String)
    (hop : isRelationalOp op = true ∨ op = "==" ∨ op = "!=")
    (h : analyzeExpr (PNode.binaryExpr op lhs rhs) = Except.ok t) :
    t = if isBinaryWithRelationalOp lhs then "Bool(chained)" else "Bool" := by
  cases hl : analyzeExpr lhs with
  | error e => simp only [analyzeExpr, hl] at h; exact absurd h (by simp)
  | ok lhsTy =>
    cases hr : analyzeExpr rhs with
    | error e => simp only [analyzeExpr, hl, hr] at h; exact absurd h (by simp)
    | ok rhsTy =>
      simp only [analyzeExpr, hl, hr] at h
      rw [if_pos hop] at h
      by_cases hcc : ¬ canImplicitConvert lhsTy rhsTy = true ∧
          ¬ canImplicitConvert rhsTy lhsTy = true
      · rw [if_pos hcc] at h; exact absurd h (by simp)
      · rw [if_neg hcc] at h
        simp only [Except.ok.injEq] at h
        exact h.symm

/-- Witness for claim C8's amended theorem at `(1 < 2) == 3`. -/
theorem comparison_result_type_witness :
    (isRelationalOp "==" = true ∨ "==" = "==" ∨ "==" = "!=")
    ∧ "Bool(chained)"
        = (if isBinaryWithRelationalOp
              (PNode.binaryExpr "<" (PNode.literal "1") (PNode.literal "2"))
            then "Bool(chained)" else "Bool") :=
  ⟨Or.inr (Or.inl rfl),
    comparison_result_type "=="
      (PNode.binaryExpr "<" (PNode.literal "1") (PNode.literal "2")) (PNode.literal "3")
      "Bool(chained)" (Or.inr (Or.inl rfl)) rfl⟩

/-! ## Print format checking (src/frontend/sema.cpp,
CollectPrintFormatSpecifiers and ValidatePrintArgs) -/

/-- `PrintFormatSpec`: conversion char plus `*`-width / `.*`-precision flags. -/
structure PrintFormatSpec where
  conv : Char := '\x00'
  widthFromArg : Bool := false
  precisionFromArg : Bool := false
deriving DecidableEq, Repr

/-- `IsStringLiteralText`: trimmed text of length ≥ 2 delimited by quotes. -/
def isStringLiteralText (text : String) : Bool :=
  let t := trimCopy text
  t.data.length ≥ 2 ∧ t.data.headD ' ' = '"' ∧ t.data.getLast? = some '"'

/-- Print-format flag characters. -/
def isFlagChar (c : Char) : Bool :=
  c = '-' ∨ c = '+' ∨ c = ' ' ∨ c = '#' ∨ c = '0' ∨ c = '\''

/-- A length-modifier character (`h l j t L q`). -/
def isLenModChar (c : Char) : Bool :=
  c = 'h' ∨ c = 'l' ∨ c = 'j' ∨ c = 't' ∨ c = 'L' ∨ c = 'q'

/-- The length-modifier skipping loop; `hh`/`ll` doubles skip both chars. -/
def lengthModSkip : List Char → List Char
  | [] => []
  | [c] => if isLenModChar c then [] else [c]
  | c :: c2 :: rest =>
      if isLenModChar c then
        if (c = 'h' ∨ c = 'l') ∧ c2 = c then lengthModSkip rest
        else lengthModSkip (c2 :: rest)
      else c :: c2 :: rest

/-- The supported conversion characters. -/
def isPrintConvChar (c : Char) : Bool :=
  c = 'd' ∨ c = 'i' ∨ c = 'u' ∨ c = 'x' ∨ c = 'X' ∨ c = 'o' ∨ c = 'b' ∨ c = 'c' ∨
  c = 's' ∨ c = 'p' ∨ c = 'P' ∨ c = 'z' ∨ c = 'f' ∨ c = 'F' ∨ c = 'e' ∨ c = 'E' ∨
  c = 'g' ∨ c = 'G'

/-- The `%`-scanning loop of `CollectPrintFormatSpecifiers` over the characters
strictly between the quotes.  The fuel argument only bounds the loop (each
iteration consumes at least one character, so `length + 1` suffices). -/
def collectSpecsGo : Nat → List Char → Except String (List PrintFormatSpec)
  | 0, _ => Except.error "print format scan fuel exhausted"
  | _, [] => Except.ok []
  | fuel + 1, c :: rest =>
      if c = '\\' then
        match rest with
        | _ :: rest2 => collectSpecsGo fuel rest2
        | [] => collectSpecsGo fuel []
      else if c = '%' then
        match rest with
        | [] => Except.error "dangling '%' in print format string"
        | c2 :: rest2 =>
            if c2 = '%' then collectSpecsGo fuel rest2
            else
              let afterFlags := (c2 :: rest2).dropWhile isFlagChar
              let starSplit : Bool × List Char :=
                match afterFlags with
                | '*' :: r => (true, r)
                | r => (false, r)
              let afterWidth := starSplit.2.dropWhile Char.isDigit
              let precSplit : Bool × List Char :=
                match afterWidth with
                | '.' :: r =>
                    match r with
                    | '*' :: r2 => (true, r2.dropWhile Char.isDigit)
                    | r2 => (false, r2.dropWhile Char.isDigit)
                | r => (false, r)
              match lengthModSkip precSplit.2 with
              | [] => Except.error "incomplete print format conversion"
              | conv :: rest3 =>
                  if isPrintConvChar conv then
                    match collectSpecsGo fuel rest3 with
                    | Except.error e => Except.error e
                    | Except.ok specs =>
                        Except.ok
                          ({ conv := conv, widthFromArg := starSplit.1,
                              precisionFromArg := precSplit.1 } :: specs)
                  else
                    Except.error ("unsupported print conversion '%" ++ String.mk [conv] ++ "'")
      else collectSpecsGo fuel rest

/-- `CollectPrintFormatSpecifiers`: trim, require a string literal, scan the
body for `%`-specifiers. -/
def collectPrintFormatSpecifiers (formatLiteral : String) :
    Except String (List PrintFormatSpec) :=
  let text := trimCopy formatLiteral
  if ¬ isStringLiteralText text then Except.error "print format must be a string literal"
  else
    let inner := (text.data.drop 1).dropLast
    collectSpecsGo (inner.length + 1) inner

/-- `PrintSpecifierAcceptsType`: unknown argument kinds always pass. -/
def printSpecifierAcceptsType (spec : Char) (argInfo : TypeInfo) : Bool :=
  if argInfo.kind = ValueKind.kUnknown then true
  else if spec = 'd' ∨ spec = 'i' ∨ spec = 'c' then isIntegralLike argInfo
  else if spec = 'u' ∨ spec = 'x' ∨ spec = 'X' ∨ spec = 'o' ∨ spec = 'b' then
    isIntegralLike argInfo ∨ argInfo.kind = ValueKind.kPointer
  else if spec = 'p' ∨ spec = 'P' then
    isIntegralLike argInfo ∨ argInfo.kind = ValueKind.kPointer
  else if spec = 'z' then isIntegralLike argInfo ∨ argInfo.kind = ValueKind.kPointer
  else if spec = 's' then argInfo.kind = ValueKind.kPointer
  else if spec = 'f' ∨ spec = 'F' ∨ spec = 'e' ∨ spec = 'E' ∨ spec = 'g' ∨ spec = 'G' then
    isNumeric argInfo
  else false

/-- The expected-argument accumulation loop of `ValidatePrintArgs`. -/
def countExpectedArgs (specs : List PrintFormatSpec) : Nat :=
  specs.foldl
    (fun acc spec =>
      acc + (if spec.widthFromArg then 1 else 0) + (if spec.precisionFromArg then 1 else 0)
        + (if spec.conv = 'z' then 2 else 1))
    0

/-- The `*`-width argument check of the per-specifier loop. -/
def checkWidthArg (widthFromArg : Bool) (args : List String) (argIndex : Nat) :
    Except String (List String × Nat) :=
  if ¬ widthFromArg then Except.ok (args, argIndex)
  else
    match args with
    | [] => Except.error "print argument list exhausted"
    | a :: rest =>
        if ¬ isIntegralLike (parseTypeInfo a) ∧ (parseTypeInfo a).kind ≠ ValueKind.kUnknown then
          Except.error ("print width argument " ++ toString (argIndex + 1)
            ++ " must be integral-like, got: " ++ a)
        else Except.ok (rest, argIndex + 1)

/-- The `.*`-precision argument check of the per-specifier loop. -/
def checkPrecisionArg (precisionFromArg : Bool) (args : List String) (argIndex : Nat) :
    Except String (List String × Nat) :=
  if ¬ precisionFromArg then Except.ok (args, argIndex)
  else
    match args with
    | [] => Except.error "print argument list exhausted"
    | a :: rest =>
        if ¬ isIntegralLike (parseTypeInfo a) ∧ (parseTypeInfo a).kind ≠ ValueKind.kUnknown then
          Except.error ("print precision argument " ++ toString (argIndex + 1)
            ++ " must be integral-like, got: " ++ a)
        else Except.ok (rest, argIndex + 1)

/-- The per-specifier argument-type loop of `ValidatePrintArgs`; `%z` consumes
two arguments.  (The exhausted-list errors are unreachable behind the argument
count check.) -/
def checkSpecArgs : List PrintFormatSpec → List String → Nat → Except String Unit
  | [], _, _ => Except.ok ()
  | spec :: rest, args, argIndex =>
      match checkWidthArg spec.widthFromArg args argIndex with
      | Except.error e => Except.error e
      | Except.ok (args1, idx1) =>
          match checkPrecisionArg spec.precisionFromArg args1 idx1 with
          | Except.error e => Except.error e
          | Except.ok (args2, idx2) =>
              if spec.conv = 'z' then
                match args2 with
                | a :: b :: args3 =>
                    if ¬ printSpecifierAcceptsType 'z' (parseTypeInfo a) then
                      Except.error ("print argument " ++ toString (idx2 + 1)
                        ++ " has incompatible type " ++ a ++ " for conversion '%z'")
                    else if (parseTypeInfo b).kind ≠ ValueKind.kPointer ∧
                        (parseTypeInfo b).kind ≠ ValueKind.kUnknown then
                      Except.error ("print argument " ++ toString (idx2 + 2)
                        ++ " must be pointer-like for conversion '%z'")
                    else checkSpecArgs rest args3 (idx2 + 2)
                | _ => Except.error "print argument list exhausted"
              else
                match args2 with
                | [] => Except.error "print argument list exhausted"
                | a :: args3 =>
                    if ¬ printSpecifierAcceptsType spec.conv (parseTypeInfo a) then
                      Except.error ("print argument " ++ toString (idx2 + 1)
                        ++ " has incompatible type " ++ a ++ " for conversion '%"
                        ++ String.mk [spec.conv] ++ "'")
                    else checkSpecArgs rest args3 (idx2 + 1)

/-- `ValidatePrintArgs` for the literal-format path: collect the specifier
list, check the expected argument count, then check each consumed argument's
type. -/
def validatePrintArgs (formatLiteral : String) (argTypes : List String) :
    Except String Unit :=
  match collectPrintFormatSpecifiers formatLiteral with
  | Except.error e => Except.error e
  | Except.ok specs =>
      if countExpectedArgs specs ≠ argTypes.length then
        Except.error ("print argument count mismatch: format expects "
          ++ toString (countExpectedArgs specs) ++ ", got " ++ toString argTypes.length)
      else checkSpecArgs specs argTypes 0

example :
    collectPrintFormatSpecifiers "\"%d %z %*d\\n\""
      = Except.ok
          [{ conv := 'd' }, { conv := 'z' }, { conv := 'd', widthFromArg := true }] := rfl

example : validatePrintArgs "\"%z\"" ["I64", "U8*"] = Except.ok () := rfl

example : validatePrintArgs "\"%z\"" ["U0", "U8*"] = Except.ok () := rfl

example :
    validatePrintArgs "\"%z\"" ["F64", "U8*"]
      = Except.error "print argument 1 has incompatible type F64 for conversion '%z'" := rfl

example :
    validatePrintArgs "\"%d\"" []
      = Except.error "print argument count mismatch: format expects 1, got 0" := rfl

/-- The per-specifier argument-consumption contract checked by
`checkSpecArgs`: each `%z` specifier's first consumed argument is
integral-like, pointer, or of unknown kind, and its second consumed argument
is pointer or unknown. -/
def zSpecArgsOk : List PrintFormatSpec → List String → Prop
  | [], _ => True
  | spec :: rest, args =>
      let args1 := if spec.widthFromArg then args.drop 1 else args
      let args2 := if spec.precisionFromArg then args1.drop 1 else args1
      (spec.conv = 'z' →
        (∀ a ∈ args2.take 1,
            isIntegralLike (parseTypeInfo a) = true ∨
            (parseTypeInfo a).kind = ValueKind.kPointer ∨
            (parseTypeInfo a).kind = ValueKind.kUnknown) ∧
        (∀ b ∈ (args2.drop 1).take 1,
            (parseTypeInfo b).kind = ValueKind.kPointer ∨
            (parseTypeInfo b).kind = ValueKind.kUnknown))
      ∧ zSpecArgsOk rest (args2.drop (if spec.conv = 'z' then 2 else 1))

theorem countExpectedArgs_aux (specs : List PrintFormatSpec) :
    ∀ acc,
      specs.foldl
        (fun acc spec =>
          acc + (if spec.widthFromArg then 1 else 0)
            + (if spec.precisionFromArg then 1 else 0)
            + (if spec.conv = 'z' then 2 else 1))
        acc
      = acc + (specs.map (fun s =>
          (if s.widthFromArg then 1 else 0) + (if s.precisionFromArg then 1 else 0)
            + (if s.conv = 'z' then 2 else 1))).sum := by
  induction specs with
  | nil => intro acc; simp
  | cons spec rest ih =>
    intro acc
    simp only [List.foldl_cons, List.map_cons, List.sum_cons]
    rw [ih]
    omega

theorem countExpectedArgs_eq_sum (specs : List PrintFormatSpec) :
    countExpectedArgs specs
      = (specs.map (fun s =>
          (if s.widthFromArg then 1 else 0) + (if s.precisionFromArg then 1 else 0)
            + (if s.conv = 'z' then 2 else 1))).sum := by
  unfold countExpectedArgs
  rw [countExpectedArgs_aux]
  omega

theorem checkWidthArg_ok (w : Bool) (args : List String) (idx : Nat)
    (args1 : List String) (idx1 : Nat)
    (h : checkWidthArg w args idx = Except.ok (args1, idx1)) :
    args1 = if w then args.drop 1 else args := by
  unfold checkWidthArg at h
  split at h
  next hw =>
    simp only [Except.ok.injEq, Prod.mk.injEq] at h
    rw [if_neg hw]
    exact h.1.symm
  next hw =>
    have hwt : w = true := by revert hw; cases w <;> simp
    split at h
    next => simp at h
    next a rest =>
      split at h
      next => simp at h
      next =>
        simp only [Except.ok.injEq, Prod.mk.injEq] at h
        rw [hwt]
        simp [h.1.symm]

theorem checkPrecisionArg_ok (w : Bool) (args : List String) (idx : Nat)
    (args1 : List String) (idx1 : Nat)
    (h : checkPrecisionArg w args idx = Except.ok (args1, idx1)) :
    args1 = if w then args.drop 1 else args := by
  unfold checkPrecisionArg at h
  split at h
  next hw =>
    simp only [Except.ok.injEq, Prod.mk.injEq] at h
    rw [if_neg hw]
    exact h.1.symm
  next hw =>
    have hwt : w = true := by revert hw; cases w <;> simp
    split at h
    next => simp at h
    next a rest =>
      split at h
      next => simp at h
      next =>
        simp only [Except.ok.injEq, Prod.mk.injEq] at h
        rw [hwt]
        simp [h.1.symm]

theorem acceptsZ_iff (info : TypeInfo) :
    printSpecifierAcceptsType 'z' info = true ↔
      (isIntegralLike info = true ∨ info.kind = ValueKind.kPointer ∨
        info.kind = ValueKind.kUnknown) := by
  cases hki : info.kind <;>
    simp [printSpecifierAcceptsType, isIntegralLike, hki]

theorem checkSpecArgs_z (specs : List PrintFormatSpec) :
    ∀ args idx, checkSpecArgs specs args idx = Except.ok () → zSpecArgsOk specs args := by
  induction specs with
  | nil => intro args idx _; trivial
  | cons spec rest ih =>
    intro args idx h
    simp only [checkSpecArgs] at h
    split at h
    · exact absurd h (by simp)
    next args1 idx1 hw =>
      split at h
      · exact absurd h (by simp)
      next args2 idx2 hp =>
        have hargs1 := checkWidthArg_ok spec.widthFromArg args idx args1 idx1 hw
        have hargs2 := checkPrecisionArg_ok spec.precisionFromArg args1 idx1 args2 idx2 hp
        simp only [zSpecArgsOk, ← hargs1, ← hargs2]
        by_cases hz : spec.conv = 'z'
        · rw [if_pos hz] at h
          split at h
          next a b args3 =>
            split at h
            · exact absurd h (by simp)
            next hbad1 =>
              split at h
              · exact absurd h (by simp)
              next hbad2 =>
                push_neg at hbad1
                push_neg at hbad2
                refine ⟨fun _ => ⟨?_, ?_⟩, ?_⟩
                · intro x hx
                  simp at hx
                  rw [hx]
                  exact (acceptsZ_iff (parseTypeInfo a)).mp hbad1
                · intro x hx
                  simp at hx
                  rw [hx]
                  by_cases hbp : (parseTypeInfo b).kind = ValueKind.kPointer
                  · exact Or.inl hbp
                  · exact Or.inr (hbad2 hbp)
                · rw [if_pos hz]
                  exact ih args3 (idx2 + 2) h
          next => exact absurd h (by simp)
        · rw [if_neg hz] at h
          split at h
          · exact absurd h (by simp)
          next a args3 =>
            split at h
            · exact absurd h (by simp)
            next hbad =>
              refine ⟨fun hzz => absurd hzz hz, ?_⟩
              rw [if_neg hz]
              exact ih args3 (idx2 + 1) h

/-- Claim C9 counterexample: `"%z"` with a first argument of type `U0` (kind
unknown: neither integral-like nor pointer) passes validation —
`PrintSpecifierAcceptsType` lets unknown-kind arguments through — so the
first consumed argument of `%z` is not required to be integral-like or
pointer. -/
theorem print_z_counterexample :
    validatePrintArgs "\"%z\"" ["U0", "U8*"] = Except.ok ()
    ∧ isIntegralLike (parseTypeInfo "U0") = false
    ∧ ¬ (parseTypeInfo "U0").kind = ValueKind.kPointer :=
  ⟨rfl, rfl, by decide⟩

/-- Claim C9 (amended): when a literal print format validates, the argument
count equals the sum over parsed specifiers of (1 for width `*`) + (1 for
precision `.*`) + (2 if the conversion is `z`, else 1) — a mismatch is
rejected — and for every `%z` specifier the first consumed argument is
integral-like, pointer, or of unknown kind, and the second is pointer or
unknown (unknown-kind arguments pass every print type check). -/
theorem print_format_arg_spec (fmt : String) (args : List String)
    (h : validatePrintArgs fmt args = Except.ok ()) :
    ∃ specs, collectPrintFormatSpecifiers fmt = Except.ok specs
      ∧ args.length = (specs.map (fun s =>
            (if s.widthFromArg then 1 else 0) + (if s.precisionFromArg then 1 else 0)
              + (if s.conv = 'z' then 2 else 1))).sum
      ∧ zSpecArgsOk specs args := by
  unfold validatePrintArgs at h
  split at h
  next e hc => exact absurd h (by simp)
  next specs hc =>
    split at h
    next hcount => exact absurd h (by simp)
    next hcount =>
      push_neg at hcount
      exact ⟨specs, hc, by rw [← hcount, countExpectedArgs_eq_sum],
        checkSpecArgs_z specs args 0 h⟩

/-- Witness for claim C9's amended theorem on `"%z"` with `["I64", "U8*"]`. -/
theorem print_format_arg_spec_witness :
    ∃ specs, collectPrintFormatSpecifiers "\"%z\"" = Except.ok specs
      ∧ (["I64", "U8*"] : List String).length = (specs.map (fun s =>
            (if s.widthFromArg then 1 else 0) + (if s.precisionFromArg then 1 else 0)
              + (if s.conv = 'z' then 2 else 1))).sum
      ∧ zSpecArgsOk specs ["I64", "U8*"] :=
  print_format_arg_spec "\"%z\"" ["I64", "U8*"] rfl

/-! ## Preprocessor (src/frontend/preprocessor.cpp) -/

/-- Preprocessor failures: `ThrowDiagnostic` carries a `Diagnostic` record
(thrown as its `FormatDiagnostic` text); the `#if` tokenizer throws a raw
`std::runtime_error` message. -/
inductive PPError where
  | diag (d : Diagnostic)
  | raw (msg : String)
deriving DecidableEq, Repr

/-- `Fail`: an error diagnostic at (file, line, column 1). -/
def ppFail (code : String) (file : String) (line : Int) (message : String)
    (remediation : String := "") : PPError :=
  PPError.diag
    { code := code, severity := DiagnosticSeverity.kError, file := file, line := line,
      column := 1, message := message, remediation := remediation }

/-- `FailExpr`: an error diagnostic attributed to "preprocessor" at 0:0. -/
def ppFailExpr (code : String) (message : String) (remediation : String := "") : PPError :=
  PPError.diag
    { code := code, severity := DiagnosticSeverity.kError, file := "preprocessor", line := 0,
      column := 0, message := message, remediation := remediation }

/-- `MacroDef`: function-like flag, parameter list, body text. -/
structure MacroDef where
  functionLike : Bool := false
  params : List String := []
  body : String := ""
deriving DecidableEq, Repr

/-- The macro table (`name → MacroDef`, insertion-ordered; later definitions
shadow earlier ones as in `macros_[name] = def`). -/
abbrev Macros := List (String × MacroDef)

/-- `macros_.find(name)`: most recent definition wins. -/
def macrosFind (macros : Macros) (name : String) : Option MacroDef :=
  match macros.find? (fun m => m.1 = name) with
  | some m => some m.2
  | none => none

/-- `macros_[name] = def`: replace-or-insert. -/
def macrosInsert (macros : Macros) (name : String) (d : MacroDef) : Macros :=
  match macros.find? (fun m => m.1 = name) with
  | some _ => macros.map (fun m => if m.1 = name then (name, d) else m)
  | none => macros ++ [(name, d)]

/-- `IsDefined`. -/
def isDefined (macros : Macros) (name : String) : Bool := (macrosFind macros name).isSome

/-- `IsIdentStart` of the preprocessor (`isalpha` or underscore). -/
def ppIsIdentStart (c : Char) : Bool := c.isAlpha ∨ c = '_'

/-- `IsIdentContinue`. -/
def ppIsIdentContinue (c : Char) : Bool := ppIsIdentStart c ∨ c.isDigit

/-- Two's-complement 64-bit wrap of an integer (`int64_t` results). -/
def i64 (z : Int) : Int := (z + 2 ^ 63) % 2 ^ 64 - 2 ^ 63

/-- The unsigned 64-bit image of an `int64_t` value. -/
def i64ToU64 (z : Int) : Nat := (z % 2 ^ 64).toNat

/-- Two's-complement bitwise AND / OR / XOR on `int64_t` values. -/
def i64Land (a b : Int) : Int := i64 (Int.ofNat (i64ToU64 a &&& i64ToU64 b))

def i64Lor (a b : Int) : Int := i64 (Int.ofNat (i64ToU64 a ||| i64ToU64 b))

def i64Lxor (a b : Int) : Int := i64 (Int.ofNat (i64ToU64 a ^^^ i64ToU64 b))

/-- `~` on `int64_t`. -/
def i64Not (a : Int) : Int := i64 (-(a + 1))

/-- `<<` on `int64_t` (shift counts follow the x86-64 masking the compiled
code exhibits: count taken modulo 64). -/
def i64Shl (a b : Int) : Int := i64 (a * 2 ^ ((b % 64 + 64) % 64).toNat)

/-- `>>` on `int64_t` (arithmetic shift; count masked modulo 64). -/
def i64Shr (a b : Int) : Int := i64 (Int.fdiv a (2 ^ ((b % 64 + 64) % 64).toNat))

/-- `#if` expression tokens (`Tok`); the `kEnd` sentinel is modelled by the
end of the token list. -/
inductive IfTok where
  | num (text : String)
  | ident (text : String)
  | lparen
  | rparen
  | op (text : String)
deriving DecidableEq, Repr

/-- The tokenizer loop of `EvalIfExprValue` (fuel bounds the loop; each
iteration consumes at least one character, so `length + 1` suffices). -/
def tokenizeIfGo : Nat → List Char → Except PPError (List IfTok)
  | 0, _ => Except.error (PPError.raw "tokenize fuel exhausted")
  | _, [] => Except.ok []
  | fuel + 1, c :: rest =>
      if isSpaceChar c then tokenizeIfGo fuel rest
      else if c.isDigit then
        match tokenizeIfGo fuel (rest.dropWhile (fun n => n.isAlphanum ∨ n = '_')) with
        | Except.error e => Except.error e
        | Except.ok toks =>
            Except.ok (IfTok.num (String.mk (c :: rest.takeWhile (fun n => n.isAlphanum ∨ n = '_'))) :: toks)
      else if ppIsIdentStart c then
        match tokenizeIfGo fuel (rest.dropWhile ppIsIdentContinue) with
        | Except.error e => Except.error e
        | Except.ok toks =>
            Except.ok (IfTok.ident (String.mk (c :: rest.takeWhile ppIsIdentContinue)) :: toks)
      else if c = '(' then
        match tokenizeIfGo fuel rest with
        | Except.error e => Except.error e
        | Except.ok toks => Except.ok (IfTok.lparen :: toks)
      else if c = ')' then
        match tokenizeIfGo fuel rest with
        | Except.error e => Except.error e
        | Except.ok toks => Except.ok (IfTok.rparen :: toks)
      else
        match rest with
        | c2 :: rest2 =>
            if ["||", "&&", "==", "!=", "<=", ">=", "<<", ">>"].contains (String.mk [c, c2]) then
              match tokenizeIfGo fuel rest2 with
              | Except.error e => Except.error e
              | Except.ok toks => Except.ok (IfTok.op (String.mk [c, c2]) :: toks)
            else if "!~+-*/%|^&<>".data.contains c then
              match tokenizeIfGo fuel rest with
              | Except.error e => Except.error e
              | Except.ok toks => Except.ok (IfTok.op (String.mk [c]) :: toks)
            else Except.error (PPError.raw ("preprocessor: unsupported token in #if: " ++ String.mk [c]))
        | [] =>
            if "!~+-*/%|^&<>".data.contains c then
              Except.ok [IfTok.op (String.mk [c])]
            else Except.error (PPError.raw ("preprocessor: unsupported token in #if: " ++ String.mk [c]))

/-- Tokenize a `#if` expression. -/
def tokenizeIf (chars : List Char) : Except PPError (List IfTok) :=
  tokenizeIfGo (chars.length + 1) chars

/-- Digit value of a char in the given base, if valid. -/
def digitValue? (base : Nat) (c : Char) : Option Nat :=
  let v :=
    if c.isDigit then some (c.toNat - '0'.toNat)
    else if 'a' ≤ c ∧ c ≤ 'f' then some (c.toNat - 'a'.toNat + 10)
    else if 'A' ≤ c ∧ c ≤ 'F' then some (c.toNat - 'A'.toNat + 10)
    else none
  match v with
  | some n => if n < base then some n else none
  | none => none

/-- Accumulate digits in a base; `none` on the first invalid digit. -/
def digitsToNat? (base : Nat) : List Char → Option Nat
  | [] => some 0
  | c :: rest =>
      match digitValue? base c with
      | none => none
      | some d =>
          match digitsToNat? base rest with
          | none => none
          | some n => some (d * base ^ rest.length + n)

/-- `parse_number`: strip `_`, then `strtoll` with base 0 (`0x` hex, leading
`0` octal, else decimal); any trailing invalid character yields 0, overflow
saturates at `LLONG_MAX`. -/
def ppParseNumber (text : String) : Int :=
  let cleaned := text.data.filter (fun c => ¬ c = '_')
  let sat : Nat → Int := fun n => if n > 2 ^ 63 - 1 then (2 : Int) ^ 63 - 1 else Int.ofNat n
  match cleaned with
  | [] => 0
  | '0' :: 'x' :: rest =>
      (match digitsToNat? 16 rest with | some n => sat n | none => 0)
  | '0' :: 'X' :: rest =>
      (match digitsToNat? 16 rest with | some n => sat n | none => 0)
  | '0' :: rest =>
      (match digitsToNat? 8 rest with | some n => sat n | none => 0)
  | _ =>
      (match digitsToNat? 10 cleaned with | some n => sat n | none => 0)

example : ppParseNumber "42" = 42 := rfl
example : ppParseNumber "0x10" = 16 := rfl
example : ppParseNumber "010" = 8 := rfl
example : ppParseNumber "1_000" = 1000 := rfl
example : ppParseNumber "2a" = 0 := rfl

/-- One parsing job of the `EvalIfExprValue` recursive-descent evaluator: one
job per parser lambda of the source (`parse_primary` … `parse_logical_or`,
the binary-operator loops carrying their accumulated value, the identifier
evaluation, and the top-level expression evaluation). -/
inductive IfJob where
  | evalValue (expr : String) (depth : Nat)
  | identVal (name : String) (depth : Nat)
  | prim (depth : Nat) (toks : List IfTok)
  | unary (depth : Nat) (toks : List IfTok)
  | mul (depth : Nat) (toks : List IfTok)
  | mulLoop (depth : Nat) (value : Int) (toks : List IfTok)
  | add (depth : Nat) (toks : List IfTok)
  | addLoop (depth : Nat) (value : Int) (toks : List IfTok)
  | shiftJ (depth : Nat) (toks : List IfTok)
  | shiftLoop (depth : Nat) (value : Int) (toks : List IfTok)
  | rel (depth : Nat) (toks : List IfTok)
  | relLoop (depth : Nat) (value : Int) (toks : List IfTok)
  | eq (depth : Nat) (toks : List IfTok)
  | eqLoop (depth : Nat) (value : Int) (toks : List IfTok)
  | bitand (depth : Nat) (toks : List IfTok)
  | bitandLoop (depth : Nat) (value : Int) (toks : List IfTok)
  | bitxor (depth : Nat) (toks : List IfTok)
  | bitxorLoop (depth : Nat) (value : Int) (toks : List IfTok)
  | bitor (depth : Nat) (toks : List IfTok)
  | bitorLoop (depth : Nat) (value : Int) (toks : List IfTok)
  | logAnd (depth : Nat) (toks : List IfTok)
  | logAndLoop (depth : Nat) (value : Int) (toks : List IfTok)
  | logOr (depth : Nat) (toks : List IfTok)
  | logOrLoop (depth : Nat) (value : Int) (toks : List IfTok)

/-- The `EvalIfExprValue` evaluator: each arm is the direct translation of the
corresponding parser lambda; the fuel decrements on every (mutually) recursive
call, so the recursion is structural.  Value-producing jobs (`evalValue`,
`identVal`) return their value paired with `[]`. -/
def ifRun : Nat → Macros → IfJob → Except PPError (Int × List IfTok)
  | 0, _, _ => Except.error (PPError.raw "if-expression fuel exhausted")
  | fuel + 1, macros, job =>
      match job with
      | IfJob.evalValue expr depth =>
          if depth > 64 then
            Except.error (ppFailExpr "HC1010" "#if expression recursion depth exceeded")
          else
            (match tokenizeIf expr.data with
            | Except.error e => Except.error e
            | Except.ok tokens =>
                match ifRun fuel macros (IfJob.logOr depth tokens) with
                | Except.error e => Except.error e
                | Except.ok (result, rest) =>
                    if ¬ rest = [] then
                      Except.error (ppFailExpr "HC1017" "trailing tokens in #if expression")
                    else Except.ok (result, []))
      | IfJob.identVal name depth =>
          if name = "TRUE" ∨ name = "true" then Except.ok (1, [])
          else if name = "FALSE" ∨ name = "false" then Except.ok (0, [])
          else
            (match macrosFind macros name with
            | none => Except.ok (0, [])
            | some d =>
                if d.functionLike then Except.ok (0, [])
                else ifRun fuel macros (IfJob.evalValue d.body (depth + 1)))
      | IfJob.prim depth toks =>
          (match toks with
          | IfTok.lparen :: rest =>
              (match ifRun fuel macros (IfJob.logOr depth rest) with
              | Except.error e => Except.error e
              | Except.ok (value, rest2) =>
                  match rest2 with
                  | IfTok.rparen :: rest3 => Except.ok (value, rest3)
                  | _ => Except.error (ppFailExpr "HC1012" "expected ')' in #if expression"))
          | IfTok.num text :: rest => Except.ok (ppParseNumber text, rest)
          | IfTok.ident name :: rest =>
              if name = "defined" then
                match rest with
                | IfTok.lparen :: rest2 =>
                    (match rest2 with
                    | IfTok.ident target :: rest3 =>
                        (match rest3 with
                        | IfTok.rparen :: rest4 =>
                            Except.ok (if isDefined macros target then 1 else 0, rest4)
                        | _ =>
                            Except.error
                              (ppFailExpr "HC1014" "expected ')' after defined(name)"))
                    | _ => Except.error (ppFailExpr "HC1013" "expected identifier after defined("))
                | IfTok.ident target :: rest2 =>
                    Except.ok (if isDefined macros target then 1 else 0, rest2)
                | _ => Except.error (ppFailExpr "HC1015" "expected identifier after defined")
              else
                (match ifRun fuel macros (IfJob.identVal name depth) with
                | Except.error e => Except.error e
                | Except.ok (v, _) => Except.ok (v, rest))
          | _ => Except.error (ppFailExpr "HC1016" "malformed #if expression"))
      | IfJob.unary depth toks =>
          (match toks with
          | IfTok.op "!" :: rest =>
              (match ifRun fuel macros (IfJob.unary depth rest) with
              | Except.error e => Except.error e
              | Except.ok (v, rest2) => Except.ok (if v = 0 then 1 else 0, rest2))
          | IfTok.op "+" :: rest => ifRun fuel macros (IfJob.unary depth rest)
          | IfTok.op "-" :: rest =>
              (match ifRun fuel macros (IfJob.unary depth rest) with
              | Except.error e => Except.error e
              | Except.ok (v, rest2) => Except.ok (i64 (-v), rest2))
          | IfTok.op "~" :: rest =>
              (match ifRun fuel macros (IfJob.unary depth rest) with
              | Except.error e => Except.error e
              | Except.ok (v, rest2) => Except.ok (i64Not v, rest2))
          | _ => ifRun fuel macros (IfJob.prim depth toks))
      | IfJob.mul depth toks =>
          (match ifRun fuel macros (IfJob.unary depth toks) with
          | Except.error e => Except.error e
          | Except.ok (v, rest) => ifRun fuel macros (IfJob.mulLoop depth v rest))
      | IfJob.mulLoop depth value toks =>
          (match toks with
          | IfTok.op "*" :: rest =>
              (match ifRun fuel macros (IfJob.unary depth rest) with
              | Except.error e => Except.error e
              | Except.ok (u, rest2) =>
                  ifRun fuel macros (IfJob.mulLoop depth (i64 (value * u)) rest2))
          | IfTok.op "/" :: rest =>
              (match ifRun fuel macros (IfJob.unary depth rest) with
              | Except.error e => Except.error e
              | Except.ok (u, rest2) =>
                  if u = 0 then Except.ok (0, rest2)
                  else ifRun fuel macros (IfJob.mulLoop depth (i64 (Int.tdiv value u)) rest2))
          | IfTok.op "%" :: rest =>
              (match ifRun fuel macros (IfJob.unary depth rest) with
              | Except.error e => Except.error e
              | Except.ok (u, rest2) =>
                  if u = 0 then Except.ok (0, rest2)
                  else ifRun fuel macros (IfJob.mulLoop depth (i64 (Int.tmod value u)) rest2))
          | _ => Except.ok (value, toks))
      | IfJob.add depth toks =>
          (match ifRun fuel macros (IfJob.mul depth toks) with
          | Except.error e => Except.error e
          | Except.ok (v, rest) => ifRun fuel macros (IfJob.addLoop depth v rest))
      | IfJob.addLoop depth value toks =>
          (match toks with
          | IfTok.op "+" :: rest =>
              (match ifRun fuel macros (IfJob.mul depth rest) with
              | Except.error e => Except.error e
              | Except.ok (u, rest2) =>
                  ifRun fuel macros (IfJob.addLoop depth (i64 (value + u)) rest2))
          | IfTok.op "-" :: rest =>
              (match ifRun fuel macros (IfJob.mul depth rest) with
              | Except.error e => Except.error e
              | Except.ok (u, rest2) =>
                  ifRun fuel macros (IfJob.addLoop depth (i64 (value - u)) rest2))
          | _ => Except.ok (value, toks))
      | IfJob.shiftJ depth toks =>
          (match ifRun fuel macros (IfJob.add depth toks) with
          | Except.error e => Except.error e
          | Except.ok (v, rest) => ifRun fuel macros (IfJob.shiftLoop depth v rest))
      | IfJob.shiftLoop depth value toks =>
          (match toks with
          | IfTok.op "<<" :: rest =>
              (match ifRun fuel macros (IfJob.add depth rest) with
              | Except.error e => Except.error e
              | Except.ok (u, rest2) =>
                  ifRun fuel macros (IfJob.shiftLoop depth (i64Shl value u) rest2))
          | IfTok.op ">>" :: rest =>
              (match ifRun fuel macros (IfJob.add depth rest) with
              | Except.error e => Except.error e
              | Except.ok (u, rest2) =>
                  ifRun fuel macros (IfJob.shiftLoop depth (i64Shr value u) rest2))
          | _ => Except.ok (value, toks))
      | IfJob.rel depth toks =>
          (match ifRun fuel macros (IfJob.shiftJ depth toks) with
          | Except.error e => Except.error e
          | Except.ok (v, rest) => ifRun fuel macros (IfJob.relLoop depth v rest))
      | IfJob.relLoop depth value toks =>
          (match toks with
          | IfTok.op "<" :: rest =>
              (match ifRun fuel macros (IfJob.shiftJ depth rest) with
              | Except.error e => Except.error e
              | Except.ok (u, rest2) =>
                  ifRun fuel macros (IfJob.relLoop depth (if value < u then 1 else 0) rest2))
          | IfTok.op ">" :: rest =>
              (match ifRun fuel macros (IfJob.shiftJ depth rest) with
              | Except.error e => Except.error e
              | Except.ok (u, rest2) =>
                  ifRun fuel macros (IfJob.relLoop depth (if value > u then 1 else 0) rest2))
          | IfTok.op "<=" :: rest =>
              (match ifRun fuel macros (IfJob.shiftJ depth rest) with
              | Except.error e => Except.error e
              | Except.ok (u, rest2) =>
                  ifRun fuel macros (IfJob.relLoop depth (if value ≤ u then 1 else 0) rest2))
          | IfTok.op ">=" :: rest =>
              (match ifRun fuel macros (IfJob.shiftJ depth rest) with
              | Except.error e => Except.error e
              | Except.ok (u, rest2) =>
                  ifRun fuel macros (IfJob.relLoop depth (if value ≥ u then 1 else 0) rest2))
          | _ => Except.ok (value, toks))
      | IfJob.eq depth toks =>
          (match ifRun fuel macros (IfJob.rel depth toks) with
          | Except.error e => Except.error e
          | Except.ok (v, rest) => ifRun fuel macros (IfJob.eqLoop depth v rest))
      | IfJob.eqLoop depth value toks =>
          (match toks with
          | IfTok.op "==" :: rest =>
              (match ifRun fuel macros (IfJob.rel depth rest) with
              | Except.error e => Except.error e
              | Except.ok (u, rest2) =>
                  ifRun fuel macros (IfJob.eqLoop depth (if value = u then 1 else 0) rest2))
          | IfTok.op "!=" :: rest =>
              (match ifRun fuel macros (IfJob.rel depth rest) with
              | Except.error e => Except.error e
              | Except.ok (u, rest2) =>
                  ifRun fuel macros (IfJob.eqLoop depth (if ¬ value = u then 1 else 0) rest2))
          | _ => Except.ok (value, toks))
      | IfJob.bitand depth toks =>
          (match ifRun fuel macros (IfJob.eq depth toks) with
          | Except.error e => Except.error e
          | Except.ok (v, rest) => ifRun fuel macros (IfJob.bitandLoop depth v rest))
      | IfJob.bitandLoop depth value toks =>
          (match toks with
          | IfTok.op "&" :: rest =>
              (match ifRun fuel macros (IfJob.eq depth rest) with
              | Except.error e => Except.error e
              | Except.ok (u, rest2) =>
                  ifRun fuel macros (IfJob.bitandLoop depth (i64Land value u) rest2))
          | _ => Except.ok (value, toks))
      | IfJob.bitxor depth toks =>
          (match ifRun fuel macros (IfJob.bitand depth toks) with
          | Except.error e => Except.error e
          | Except.ok (v, rest) => ifRun fuel macros (IfJob.bitxorLoop depth v rest))
      | IfJob.bitxorLoop depth value toks =>
          (match toks with
          | IfTok.op "^" :: rest =>
              (match ifRun fuel macros (IfJob.bitand depth rest) with
              | Except.error e => Except.error e
              | Except.ok (u, rest2) =>
                  ifRun fuel macros (IfJob.bitxorLoop depth (i64Lxor value u) rest2))
          | _ => Except.ok (value, toks))
      | IfJob.bitor depth toks =>
          (match ifRun fuel macros (IfJob.bitxor depth toks) with
          | Except.error e => Except.error e
          | Except.ok (v, rest) => ifRun fuel macros (IfJob.bitorLoop depth v rest))
      | IfJob.bitorLoop depth value toks =>
          (match toks with
          | IfTok.op "|" :: rest =>
              (match ifRun fuel macros (IfJob.bitxor depth rest) with
              | Except.error e => Except.error e
              | Except.ok (u, rest2) =>
                  ifRun fuel macros (IfJob.bitorLoop depth (i64Lor value u) rest2))
          | _ => Except.ok (value, toks))
      | IfJob.logAnd depth toks =>
          (match ifRun fuel macros (IfJob.bitor depth toks) with
          | Except.error e => Except.error e
          | Except.ok (v, rest) => ifRun fuel macros (IfJob.logAndLoop depth v rest))
      | IfJob.logAndLoop depth value toks =>
          (match toks with
          | IfTok.op "&&" :: rest =>
              (match ifRun fuel macros (IfJob.bitor depth rest) with
              | Except.error e => Except.error e
              | Except.ok (u, rest2) =>
                  ifRun fuel macros
                    (IfJob.logAndLoop depth (if ¬ value = 0 ∧ ¬ u = 0 then 1 else 0) rest2))
          | _ => Except.ok (value, toks))
      | IfJob.logOr depth toks =>
          (match ifRun fuel macros (IfJob.logAnd depth toks) with
          | Except.error e => Except.error e
          | Except.ok (v, rest) => ifRun fuel macros (IfJob.logOrLoop depth v rest))
      | IfJob.logOrLoop depth value toks =>
          (match toks with
          | IfTok.op "||" :: rest =>
              (match ifRun fuel macros (IfJob.logAnd depth rest) with
              | Except.error e => Except.error e
              | Except.ok (u, rest2) =>
                  ifRun fuel macros
                    (IfJob.logOrLoop depth (if ¬ value = 0 ∨ ¬ u = 0 then 1 else 0) rest2))
          | _ => Except.ok (value, toks))

/-- `parse_unary` entry point. -/
def parseUnary (fuel : Nat) (macros : Macros) (depth : Nat) (toks : List IfTok) :
    Except PPError (Int × List IfTok) :=
  ifRun fuel macros (IfJob.unary depth toks)

/-- The `* / %` loop of `parse_mul`; a division or modulo whose right operand
is 0 returns 0 for the whole chain immediately (`return 0;`). -/
def parseMulLoop (fuel : Nat) (macros : Macros) (depth : Nat) (value : Int)
    (toks : List IfTok) : Except PPError (Int × List IfTok) :=
  ifRun fuel macros (IfJob.mulLoop depth value toks)

/-- `parse_logical_or` entry point. -/
def parseLogicalOr (fuel : Nat) (macros : Macros) (depth : Nat) (toks : List IfTok) :
    Except PPError (Int × List IfTok) :=
  ifRun fuel macros (IfJob.logOr depth toks)

/-- `EvalIfExprValue`: depth-limited, tokenizes, parses a full expression, and
rejects trailing tokens with HC1017. -/
def evalIfExprValue (fuel : Nat) (macros : Macros) (expr : String) (depth : Nat) :
    Except PPError Int :=
  match ifRun fuel macros (IfJob.evalValue expr depth) with
  | Except.error e => Except.error e
  | Except.ok (v, _) => Except.ok v

/-- `EvalIfExpr`: an `#if` condition is true when its value is non-zero. -/
def evalIfExpr (fuel : Nat) (macros : Macros) (expr : String) : Except PPError Bool :=
  match evalIfExprValue fuel macros expr 0 with
  | Except.error e => Except.error e
  | Except.ok v => Except.ok (¬ v = 0)

example : evalIfExprValue 99 [] "1+2*3" 0 = Except.ok 7 := rfl
example : evalIfExprValue 99 [] "2/0" 0 = Except.ok 0 := rfl
example : evalIfExprValue 99 [] "1+2/0" 0 = Except.ok 1 := rfl
example : evalIfExprValue 99 [] "7%0" 0 = Except.ok 0 := rfl
example : evalIfExprValue 99 [] "(1||0)&&2==2" 0 = Except.ok 1 := rfl
example :
    evalIfExprValue 99 [] "2/0*5" 0
      = Except.error (ppFailExpr "HC1017" "trailing tokens in #if expression") := rfl

/-- Claim C4 counterexample: `#if 2/0*5` contains a division whose right
operand evaluates to 0, yet evaluation does not succeed: the multiplicative
parser returns 0 immediately, strands the `*5` tokens, and the evaluator
fails with HC1017 "trailing tokens in #if expression".  (`2/0` alone does
silently yield 0.) -/
theorem if_div_zero_counterexample :
    evalIfExprValue 99 [] "2/0*5" 0
      = Except.error (ppFailExpr "HC1017" "trailing tokens in #if expression")
    ∧ evalIfExprValue 99 [] "2/0" 0 = Except.ok 0 :=
  ⟨rfl, rfl⟩

/-- Claim C4 (amended): a division or modulo whose right operand evaluates to
0 makes the multiplicative chain return 0 immediately and silently (no
diagnostic from the division itself); the tokens following the zero divisor
are left unconsumed for the outer precedence levels, so the whole evaluation
succeeds when no further `*`, `/` or `%` follows directly (e.g. `2/0` and
`1+2/0` evaluate), but strands a following multiplicative operator, which
then fails as trailing tokens (HC1017) or a missing `)` (HC1012). -/
theorem if_div_mod_zero_yields_zero (fuel : Nat) (macros : Macros) (depth : Nat)
    (value : Int) (ts ts2 : List IfTok)
    (h : parseUnary fuel macros depth ts = Except.ok (0, ts2)) :
    parseMulLoop (fuel + 1) macros depth value (IfTok.op "/" :: ts) = Except.ok (0, ts2)
    ∧ parseMulLoop (fuel + 1) macros depth value (IfTok.op "%" :: ts) = Except.ok (0, ts2) := by
  unfold parseUnary at h
  unfold parseMulLoop
  constructor <;> simp [ifRun, h]

/-- Witness for claim C4's amended theorem at `8 / 0` (and `8 % 0`). -/
theorem if_div_mod_zero_yields_zero_witness :
    parseUnary 9 [] 0 [IfTok.num "0"] = Except.ok (0, [])
    ∧ parseMulLoop 10 [] 0 8 [IfTok.op "/", IfTok.num "0"] = Except.ok (0, [])
    ∧ parseMulLoop 10 [] 0 8 [IfTok.op "%", IfTok.num "0"] = Except.ok (0, []) :=
  ⟨rfl,
    (if_div_mod_zero_yields_zero 9 [] 0 8 [IfTok.num "0"] [] rfl).1,
    (if_div_mod_zero_yields_zero 9 [] 0 8 [IfTok.num "0"] [] rfl).2⟩

/-- `LTrim` of the preprocessor. -/
def ppLTrim (s : List Char) : List Char := s.dropWhile isSpaceChar

/-- `Trim` of the preprocessor. -/
def ppTrim (s : List Char) : List Char :=
  ((ppLTrim s).reverse.dropWhile isSpaceChar).reverse

/-- `StartsWith`. -/
def ppStartsWith (text prefixText : List Char) : Bool :=
  text.take prefixText.length = prefixText

/-- `DirName`: directory part up to the last `/` or `\`, else `.`. -/
def dirName (path : String) : String :=
  let cs := path.data
  match ((cs.enum.filter (fun p => p.2 = '/' ∨ p.2 = '\\')).map Prod.fst).getLast? with
  | none => "."
  | some 0 => String.mk (cs.take 1)
  | some k => String.mk (cs.take k)

example : dirName "a/b/c.hc" = "a/b" := rfl
example : dirName "c.hc" = "." := rfl
example : dirName "/c.hc" = "/" := rfl

/-- The quoted-literal copying loop shared by `ExpandText`,
`ParseMacroCallArgs` and `SubstituteMacroParams`: given the characters after
an opening quote, returns the copied span (escapes verbatim, including the
closing quote when found) and the remaining characters. -/
def copyQuoted (quote : Char) : List Char → List Char × List Char
  | [] => ([], [])
  | qc :: rest =>
      if qc = '\\' then
        match rest with
        | esc :: rest2 =>
            let r := copyQuoted quote rest2
            (qc :: esc :: r.1, r.2)
        | [] => ([qc], [])
      else if qc = quote then ([qc], rest)
      else
        let r := copyQuoted quote rest
        (qc :: r.1, r.2)

theorem copyQuoted_append_aux (quote : Char) :
    ∀ fuel l, List.length l ≤ fuel → (copyQuoted quote l).1 ++ (copyQuoted quote l).2 = l := by
  intro fuel
  induction fuel with
  | zero =>
    intro l h
    have : l = [] := List.length_eq_zero.mp (Nat.le_zero.mp h)
    subst this; rfl
  | succ fuel ih =>
    intro l h
    match l with
    | [] => rfl
    | qc :: rest =>
      rw [copyQuoted.eq_def]
      dsimp only
      by_cases hb : qc = '\\'
      · rw [if_pos hb]
        match rest with
        | [] => simp
        | esc :: rest2 =>
          have hlen : List.length rest2 ≤ fuel := by simp at h; omega
          simp [ih rest2 hlen]
      · rw [if_neg hb]
        by_cases hq : qc = quote
        · rw [if_pos hq]; simp
        · rw [if_neg hq]
          have hlen : List.length rest ≤ fuel := by simp at h; omega
          simp [ih rest hlen]

theorem copyQuoted_append (quote : Char) (l : List Char) :
    (copyQuoted quote l).1 ++ (copyQuoted quote l).2 = l :=
  copyQuoted_append_aux quote (List.length l) l le_rfl

/-- The argument-collection loop of `ParseMacroCallArgs` (after the opening
parenthesis).  Fuel bounds the loop; each iteration consumes at least one
character. -/
def parseMacroCallArgsGo (file : String) (lineNo : Int) :
    Nat → List Char → List Char → Nat → Bool → List String →
    Except PPError (List String × List Char)
  | 0, _, _, _, _, _ => Except.error (PPError.raw "macro call parse fuel exhausted")
  | _ + 1, [], _, _, _, _ =>
      Except.error (ppFail "HC1034" file lineNo "unterminated macro invocation")
  | fuel + 1, c :: rest, current, depth, sawAny, args =>
      if c = '"' ∨ c = '\'' then
        let r := copyQuoted c rest
        parseMacroCallArgsGo file lineNo fuel r.2 (current ++ c :: r.1) depth true args
      else if c = '(' then
        parseMacroCallArgsGo file lineNo fuel rest (current ++ [c]) (depth + 1) true args
      else if c = ')' then
        if depth - 1 = 0 then
          Except.ok
            (if sawAny then args ++ [String.mk (ppTrim current)] else args, rest)
        else
          parseMacroCallArgsGo file lineNo fuel rest (current ++ [c]) (depth - 1) sawAny args
      else if c = ',' ∧ depth = 1 then
        parseMacroCallArgsGo file lineNo fuel rest [] depth true
          (args ++ [String.mk (ppTrim current)])
      else
        parseMacroCallArgsGo file lineNo fuel rest (current ++ [c]) depth
          (sawAny ∨ ¬ isSpaceChar c) args

/-- `ParseMacroCallArgs`: the input starts at the opening parenthesis; returns
the argument texts and the characters after the closing parenthesis. -/
def parseMacroCallArgs (fuel : Nat) (file : String) (lineNo : Int) (chars : List Char) :
    Except PPError (List String × List Char) :=
  match chars with
  | '(' :: body => parseMacroCallArgsGo file lineNo fuel body [] 1 false []
  | _ => Except.error (ppFail "HC1033" file lineNo "internal macro call parse error")

example :
    parseMacroCallArgs 99 "f" 1 "(a, g(x,y), \"s,t\")rest".data
      = Except.ok (["a", "g(x,y)", "\"s,t\""], "rest".data) := rfl

example :
    parseMacroCallArgs 99 "f" 1 "()rest".data = Except.ok ([], "rest".data) := rfl

/-- The body walk of `SubstituteMacroParams` (quotes verbatim, parameter
identifiers replaced).  The parameter map takes the last binding of a name,
matching repeated `param_map[p] = arg` assignment. -/
def substituteGo (pmap : List (String × String)) :
    Nat → List Char → List Char
  | 0, _ => []
  | _ + 1, [] => []
  | fuel + 1, c :: rest =>
      if c = '"' ∨ c = '\'' then
        let r := copyQuoted c rest
        c :: r.1 ++ substituteGo pmap fuel r.2
      else if ppIsIdentStart c then
        let ident := String.mk (c :: rest.takeWhile ppIsIdentContinue)
        let after := rest.dropWhile ppIsIdentContinue
        match (pmap.reverse.find? (fun m => m.1 = ident)) with
        | some m => m.2.data ++ substituteGo pmap fuel after
        | none => ident.data ++ substituteGo pmap fuel after
      else c :: substituteGo pmap fuel rest

/-- `SubstituteMacroParams`. -/
def substituteMacroParams (d : MacroDef) (args : List String) : String :=
  String.mk (substituteGo (d.params.zip args) (d.body.length + 1) d.body.data)

example :
    substituteMacroParams { functionLike := true, params := ["x", "y"], body := "x + y * \"x\"" }
      ["1", "2"] = "1 + 2 * \"x\"" := rfl

/-- The built-in macro names expanded unconditionally by `ExpandText`. -/
def builtinMacroNames : List String :=
  ["__FILE__", "__DIR__", "__DATE__", "__TIME__", "__LINE__", "__CMD_LINE__"]

/-- `ExpandText`: builtin expansion, reentrancy-guarded macro expansion with
argument substitution for function-like macros, verbatim quoted literals.
Fuel decrements on every step (macro bodies restart on fresh text, so the
traversal alone is not structural); all theorems supply sufficient fuel. -/
def expandTextGo (macros : Macros) (file : String) (lineNo : Int) :
    Nat → List String → List Char → Except PPError (List Char)
  | 0, _, _ => Except.error (PPError.raw "expand fuel exhausted")
  | _ + 1, _, [] => Except.ok []
  | fuel + 1, active, c :: rest =>
      if c = '"' ∨ c = '\'' then
        let r := copyQuoted c rest
        match expandTextGo macros file lineNo fuel active r.2 with
        | Except.error e => Except.error e
        | Except.ok out => Except.ok (c :: r.1 ++ out)
      else if ppIsIdentStart c then
        let ident := String.mk (c :: rest.takeWhile ppIsIdentContinue)
        let after := rest.dropWhile ppIsIdentContinue
        let emit : List Char → Except PPError (List Char) := fun replacement =>
          match expandTextGo macros file lineNo fuel active after with
          | Except.error e => Except.error e
          | Except.ok out => Except.ok (replacement ++ out)
        if ident = "__FILE__" then emit ('"' :: file.data ++ ['"'])
        else if ident = "__DIR__" then emit ('"' :: (dirName file).data ++ ['"'])
        else if ident = "__DATE__" then emit "\"1970-01-01\"".data
        else if ident = "__TIME__" then emit "\"00:00:00\"".data
        else if ident = "__LINE__" then emit (toString lineNo).data
        else if ident = "__CMD_LINE__" then emit "0".data
        else
          match macrosFind macros ident with
          | none => emit ident.data
          | some d =>
              if active.contains ident then emit ident.data
              else if d.functionLike then
                match (after.dropWhile isSpaceChar) with
                | '(' :: callRest =>
                    (match parseMacroCallArgs fuel file lineNo ('(' :: callRest) with
                    | Except.error e => Except.error e
                    | Except.ok (args, afterCall) =>
                        if ¬ args.length = d.params.length then
                          Except.error (ppFail "HC1032" file lineNo
                            ("wrong argument count for macro " ++ ident ++ " (expected "
                              ++ toString d.params.length ++ ", got "
                              ++ toString args.length ++ ")"))
                        else
                          match expandTextGo macros file lineNo fuel (ident :: active)
                              (substituteMacroParams d args).data with
                          | Except.error e => Except.error e
                          | Except.ok expanded =>
                              match expandTextGo macros file lineNo fuel active afterCall with
                              | Except.error e => Except.error e
                              | Except.ok out => Except.ok (expanded ++ out))
                | _ => emit ident.data
              else
                match expandTextGo macros file lineNo fuel (ident :: active) d.body.data with
                | Except.error e => Except.error e
                | Except.ok expanded =>
                    match expandTextGo macros file lineNo fuel active after with
                    | Except.error e => Except.error e
                    | Except.ok out => Except.ok (expanded ++ out)
      else
        match expandTextGo macros file lineNo fuel active rest with
        | Except.error e => Except.error e
        | Except.ok out => Except.ok (c :: out)

/-- Fuel budget for one `ExpandText` call: generously dominates the traversal
and nested macro expansions actually reachable behind the reentrancy guard. -/
def expandFuel (macros : Macros) (text : List Char) : Nat :=
  (text.length
      + (macros.map (fun m => m.2.body.length + m.2.params.length + m.1.length)).sum + 2)
    ^ (macros.length + 2)

/-- `ExpandLine`: expansion with a fresh active-macro set. -/
def expandLine (macros : Macros) (file : String) (lineNo : Int) (line : List Char) :
    Except PPError (List Char) :=
  expandTextGo macros file lineNo (expandFuel macros line) [] line

example :
    expandLine [] "f.hc" 3 "x = __LINE__; s = \"__LINE__\";".data
      = Except.ok "x = 3; s = \"__LINE__\";".data := rfl

example :
    expandLine [("SQ", { functionLike := true, params := ["x"], body := "((x)*(x))" })]
      "f.hc" 1 "y = SQ(4);".data
      = Except.ok "y = ((4)*(4));".data := rfl

example :
    expandLine [("A", { body := "B" }), ("B", { body := "A" })] "f.hc" 1 "A".data
      = Except.ok "A".data := rfl

/-- The `std::getline` line split used by `ProcessFile`: lines end at a
newline, and a trailing newline yields no extra empty line. -/
def splitLinesCpp : List Char → List (List Char)
  | [] => []
  | c :: rest =>
      if c = '\n' then [] :: splitLinesCpp rest
      else
        match splitLinesCpp rest with
        | [] => [[c]]
        | l :: ls => (c :: l) :: ls

example : splitLinesCpp "x".data = ["x".data] := rfl
example : splitLinesCpp "x\n".data = ["x".data] := rfl
example : splitLinesCpp "x\n\ny\n".data = ["x".data, [], "y".data] := rfl
example : splitLinesCpp "".data = [] := rfl

/-- The inverse glue: each produced line followed by a newline. -/
def unsplitLines (lns : List (List Char)) : List Char :=
  lns.foldr (fun l acc => l ++ '\n' :: acc) []

theorem splitLinesCpp_ne_nil (c : Char) (rest : List Char) :
    splitLinesCpp (c :: rest) ≠ [] := by
  rw [splitLinesCpp.eq_def]
  dsimp only
  by_cases hn : c = '\n'
  · rw [if_pos hn]; simp
  · rw [if_neg hn]
    match splitLinesCpp rest with
    | [] => simp
    | l :: ls => simp

theorem unsplit_split (s : List Char) (h : s = [] ∨ s.getLast? = some '\n') :
    unsplitLines (splitLinesCpp s) = s := by
  induction s with
  | nil => rfl
  | cons c rest ih =>
    rcases h with h | h
    · exact absurd h (by simp)
    · rw [splitLinesCpp.eq_def]
      dsimp only
      by_cases hn : c = '\n'
      · rw [if_pos hn]
        match rest, h with
        | [], _ => subst hn; rfl
        | r :: rs, h =>
          have hlast : (r :: rs).getLast? = some '\n' := by
            rw [List.getLast?_cons_cons] at h
            exact h
          have := ih (Or.inr hlast)
          subst hn
          simp [unsplitLines] at this ⊢
          exact this
      · rw [if_neg hn]
        match rest, h with
        | [], h =>
          simp at h
          exact absurd h hn
        | r :: rs, h =>
          have hlast : (r :: rs).getLast? = some '\n' := by
            rw [List.getLast?_cons_cons] at h
            exact h
          have ihr := ih (Or.inr hlast)
          match hsp : splitLinesCpp (r :: rs) with
          | [] => exact absurd hsp (splitLinesCpp_ne_nil r rs)
          | l :: ls =>
            rw [hsp] at ihr
            simp only [unsplitLines, List.foldr_cons] at ihr ⊢
            rw [List.cons_append, ihr]

/-- Whether a traversal of the text (same step structure as `expandTextGo`
with an empty macro table) meets an identifier that is one of the builtin
macro names; pessimistically true when the fuel runs out. -/
def hasBuiltinIdentGo : Nat → List Char → Bool
  | 0, _ => true
  | _ + 1, [] => false
  | fuel + 1, c :: rest =>
      if c = '"' ∨ c = '\'' then hasBuiltinIdentGo fuel (copyQuoted c rest).2
      else if ppIsIdentStart c then
        if String.mk (c :: rest.takeWhile ppIsIdentContinue) ∈ builtinMacroNames then true
        else hasBuiltinIdentGo fuel (rest.dropWhile ppIsIdentContinue)
      else hasBuiltinIdentGo fuel rest

example : hasBuiltinIdentGo 99 "a = __LINE__;".data = true := rfl
example : hasBuiltinIdentGo 99 "a = \"__LINE__\";".data = false := rfl

theorem expandTextGo_empty_id (file : String) (lineNo : Int) :
    ∀ fuel active text, hasBuiltinIdentGo fuel text = false →
      expandTextGo [] file lineNo fuel active text = Except.ok text := by
  intro fuel
  induction fuel with
  | zero => intro active text h; simp [hasBuiltinIdentGo] at h
  | succ fuel ih =>
    intro active text h
    match text with
    | [] => rfl
    | c :: rest =>
      rw [hasBuiltinIdentGo.eq_def] at h
      rw [expandTextGo.eq_def]
      dsimp only at h ⊢
      by_cases hq : c = '"' ∨ c = '\''
      · rw [if_pos hq] at h ⊢
        rw [ih active (copyQuoted c rest).2 h]
        dsimp only
        rw [List.cons_append, copyQuoted_append]
      · rw [if_neg hq] at h ⊢
        by_cases hid : ppIsIdentStart c = true
        · rw [if_pos hid] at h ⊢
          by_cases hmem :
              String.mk (c :: rest.takeWhile ppIsIdentContinue) ∈ builtinMacroNames
          · rw [if_pos hmem] at h; exact absurd h (by simp)
          · rw [if_neg hmem] at h
            simp only [builtinMacroNames, List.mem_cons, List.not_mem_nil, or_false,
              not_or] at hmem
            obtain ⟨h1, h2, h3, h4, h5, h6⟩ := hmem
            rw [if_neg h1, if_neg h2, if_neg h3, if_neg h4, if_neg h5, if_neg h6]
            have hfind : macrosFind [] (String.mk (c :: rest.takeWhile ppIsIdentContinue))
                = none := rfl
            rw [hfind]
            dsimp only
            rw [ih active (rest.dropWhile ppIsIdentContinue) h]
            dsimp only
            rw [List.cons_append, List.takeWhile_append_dropWhile]
        · rw [if_neg hid] at h ⊢
          rw [ih active rest h]

/-- One conditional-compilation frame (`CondFrame`). -/
structure CondFrame where
  parentActive : Bool
  branchTaken : Bool
  currentActive : Bool
deriving DecidableEq, Repr

/-- `IsActive`: the stack top decides; an empty stack is active.  The list
head is the most recently pushed frame. -/
def isActive : List CondFrame → Bool
  | [] => true
  | f :: _ => f.currentActive

/-- `PushCond`. -/
def pushCond (cond : List CondFrame) (conditionTrue : Bool) : List CondFrame :=
  let pa := isActive cond
  { parentActive := pa, branchTaken := conditionTrue,
    currentActive := pa && conditionTrue } :: cond

/-- `iss >> word`: skip whitespace, take the maximal non-whitespace run,
returning the word and the remaining characters. -/
def readWord (s : List Char) : List Char × List Char :=
  let t := s.dropWhile isSpaceChar
  (t.takeWhile (fun c => ¬ isSpaceChar c), t.dropWhile (fun c => ¬ isSpaceChar c))

/-- `ExtractQuoted`: the text between the first and last double quote. -/
def extractQuoted (text : List Char) (file : String) (lineNo : Int)
    (directive : String) : Except PPError String :=
  let idxs := (text.enum.filter (fun p => p.2 = '"')).map Prod.fst
  match idxs.head?, idxs.getLast? with
  | some f, some l =>
      if f = l then
        Except.error (ppFail "HC1022" file lineNo (directive ++ " expects quoted path")
          ("use " ++ directive ++ " \"relative/path\""))
      else Except.ok (String.mk ((text.drop (f + 1)).take (l - f - 1)))
  | _, _ =>
      Except.error (ppFail "HC1022" file lineNo (directive ++ " expects quoted path")
        ("use " ++ directive ++ " \"relative/path\""))

example : extractQuoted " \"b.hc\" ".data "f" 1 "#include" = Except.ok "b.hc" := rfl

/-- `JoinPath`. -/
def joinPath (base leaf : String) : String :=
  if leaf = "" then base
  else if leaf.data.head? = some '/' ∨ leaf.data.head? = some '\\' then leaf
  else if base = "" ∨ base = "." then leaf
  else if base.data.getLast? = some '/' ∨ base.data.getLast? = some '\\' then base ++ leaf
  else base ++ "/" ++ leaf

/-- The preprocessor's environment: execution mode, include search
directories, the file system as a path-to-contents map, the
`std::filesystem::weakly_canonical` path normalisation, and the `#exe`
interpreter result — the latter two are host/OS behaviour outside the
translated sources, so they are abstract parameters of the embedding. -/
structure PPEnv where
  jitMode : Bool
  includeDirs : List String
  fs : List (String × String)
  canon : String → String
  evalExe : String → String → Int → Except PPError (List Char)

/-- File existence in the modelled file system. -/
def fsExists (env : PPEnv) (path : String) : Bool :=
  (env.fs.find? (fun p => p.1 = path)).isSome

/-- File read in the modelled file system. -/
def fsRead (env : PPEnv) (path : String) : Option String :=
  (env.fs.find? (fun p => p.1 = path)).map Prod.snd

/-- `ResolveIncludePath`: first existing `JoinPath(root, target)` over the
including file's directory followed by the configured include directories. -/
def resolveIncludePath (env : PPEnv) (file target : String) (lineNo : Int) :
    Except PPError String :=
  let roots := dirName file :: env.includeDirs
  match roots.find? (fun root => fsExists env (joinPath root target)) with
  | some root => Except.ok (joinPath root target)
  | none =>
      Except.error (ppFail "HC1007" file lineNo ("include not found: " ++ target)
        ("searched include roots in order:"
          ++ String.join (roots.map (fun r => " " ++ r))))

/-- `IsExeDirectiveLine`. -/
def isExeDirectiveLine (line : List Char) : Bool :=
  if ppStartsWith line "#exe".data then
    match line.drop 4 with
    | [] => true
    | next :: _ => isSpaceChar next ∨ next = '{'
  else false

/-- The scanning loop of `HasClosedExeBody` (quote skipping consumes like
`copyQuoted`); fuel bounds the loop. -/
def hasClosedExeBodyGo : Nat → List Char → Bool → Nat → Bool
  | 0, _, _, _ => false
  | _ + 1, [], sawOpen, depth => sawOpen && depth = 0
  | fuel + 1, c :: rest, sawOpen, depth =>
      if c = '"' ∨ c = '\'' then
        hasClosedExeBodyGo fuel (copyQuoted c rest).2 sawOpen depth
      else if c = '{' then hasClosedExeBodyGo fuel rest true (depth + 1)
      else if c = '}' ∧ 0 < depth then hasClosedExeBodyGo fuel rest sawOpen (depth - 1)
      else hasClosedExeBodyGo fuel rest sawOpen depth

/-- `HasClosedExeBody`. -/
def hasClosedExeBody (line : List Char) : Bool :=
  if line.length < 4 then false
  else hasClosedExeBodyGo (line.length + 1) (line.drop 4) false 0

example : hasClosedExeBody "#exe { a; }".data = true := rfl
example : hasClosedExeBody "#exe \x7b".data = false := rfl

/-- The `#exe` continuation-gathering loop of `ProcessFile`: pull further
lines (joined with a newline) until the body closes; returns the gathered
directive text, the remaining lines, and how many lines were consumed. -/
def gatherExe (file : String) (directiveLineNo : Int) :
    Nat → List Char → List (List Char) →
    Except PPError (List Char × List (List Char) × Nat)
  | 0, _, _ => Except.error (PPError.raw "exe gather fuel exhausted")
  | fuel + 1, directive, lns =>
      if hasClosedExeBody directive then Except.ok (directive, lns, 0)
      else
        match lns with
        | [] => Except.error (ppFail "HC1018" file directiveLineNo "unterminated #exe block")
        | l :: ls =>
            match gatherExe file directiveLineNo fuel (directive ++ '\n' :: l) ls with
            | Except.error e => Except.error e
            | Except.ok (d, rem, n) => Except.ok (d, rem, n + 1)

/-- The parameter-list loop of `ParseDefine` (between the parentheses). -/
def parseDefineParamsGo (file : String) (lineNo : Int) (name : String) :
    Nat → List Char → List Char → Bool → List String →
    Except PPError (List String × List Char)
  | 0, _, _, _, _ => Except.error (PPError.raw "define parse fuel exhausted")
  | _ + 1, [], _, _, _ =>
      Except.error (ppFail "HC1030" file lineNo
        ("unterminated function-like macro definition for: " ++ name))
  | fuel + 1, c :: rest, current, expectParam, params =>
      if c = ')' then
        if ¬ current.isEmpty then Except.ok (params ++ [String.mk current], rest)
        else if ¬ expectParam then
          Except.error (ppFail "HC1031" file lineNo
            ("malformed function-like macro parameter list for: " ++ name))
        else Except.ok (params, rest)
      else if isSpaceChar c then parseDefineParamsGo file lineNo name fuel rest current expectParam params
      else if c = ',' then
        if expectParam then
          Except.error (ppFail "HC1028" file lineNo
            ("empty parameter in function-like macro: " ++ name))
        else
          parseDefineParamsGo file lineNo name fuel rest [] true
            (params ++ [String.mk current])
      else if ¬ ppIsIdentStart c then
        Except.error (ppFail "HC1029" file lineNo
          ("invalid function-like macro parameter list for: " ++ name))
      else
        parseDefineParamsGo file lineNo name fuel
          (rest.dropWhile ppIsIdentContinue)
          (c :: rest.takeWhile ppIsIdentContinue) false params

/-- `ParseDefine`: macro name, optional parameter list when a parenthesis
immediately follows the name, trimmed body; the table entry is replaced. -/
def parseDefine (macros : Macros) (rest : List Char) (file : String) (lineNo : Int) :
    Except PPError Macros :=
  match rest with
  | [] => Except.error (ppFail "HC1026" file lineNo "#define requires a macro name")
  | c :: _ =>
      if ¬ ppIsIdentStart c then
        Except.error (ppFail "HC1027" file lineNo "invalid macro name in #define")
      else
        let name := String.mk (rest.takeWhile ppIsIdentContinue)
        let after := rest.dropWhile ppIsIdentContinue
        match after with
        | '(' :: pr =>
            match parseDefineParamsGo file lineNo name (pr.length + 1) pr [] true [] with
            | Except.error e => Except.error e
            | Except.ok (params, tail) =>
                Except.ok (macrosInsert macros name
                  { functionLike := true, params := params,
                    body := String.mk (ppTrim tail) })
        | _ => Except.ok (macrosInsert macros name { body := String.mk (ppTrim after) })

example :
    parseDefine [] "SQ(x) ((x)*(x))".data "f" 1
      = Except.ok [("SQ",
          { functionLike := true, params := ["x"], body := "((x)*(x))" })] := rfl

example :
    parseDefine [] "N 42".data "f" 1 = Except.ok [("N", { body := "42" })] := rfl

/-- Fuel for one `#if` expression evaluation. -/
def ifFuel (expr : String) : Nat := (expr.length + 4) ^ 3

/-- Pending preprocessor work: the `ProcessFile` line loop or one
`HandleDirective` invocation (merged into one fueled dispatcher because
`#include` recurses back into `ProcessFile`). -/
inductive PJob where
  | runLines (file : String) (depth : Nat) (stack : List String)
      (lns : List (List Char)) (lineNo : Int) (cond : List CondFrame) (macros : Macros)
  | runDirective (line : List Char) (file : String) (lineNo : Int) (depth : Nat)
      (stack : List String) (cond : List CondFrame) (macros : Macros)

/-- `ProcessFile` and `HandleDirective`: produces the output chunk, the
conditional stack as left by the job, and the updated macro table. -/
def ppRun (env : PPEnv) : Nat → PJob → Except PPError (List Char × List CondFrame × Macros)
  | 0, _ => Except.error (PPError.raw "preprocessor fuel exhausted")
  | fuel + 1, PJob.runLines file depth stack lns lineNo cond macros =>
      if depth > 64 then
        Except.error (ppFail "HC1001" file 1 "preprocessor include depth exceeded"
          "reduce include nesting or break include cycles")
      else
        match lns with
        | [] =>
            if cond.isEmpty then Except.ok ([], cond, macros)
            else
              Except.error (ppFail "HC1002" file lineNo "missing #endif"
                "ensure every #if/#ifdef/#ifndef block is closed")
        | line :: restLines =>
            let ln := lineNo + 1
            let trimmed := ppLTrim line
            if ppStartsWith trimmed "#".data then
              match
                (if isExeDirectiveLine trimmed then
                  gatherExe file ln (restLines.length + 1) trimmed restLines
                else Except.ok (trimmed, restLines, 0)) with
              | Except.error e => Except.error e
              | Except.ok (directive, remaining, consumed) =>
                  match ppRun env fuel
                      (PJob.runDirective directive file ln depth stack cond macros) with
                  | Except.error e => Except.error e
                  | Except.ok (chunk, cond2, macros2) =>
                      match ppRun env fuel
                          (PJob.runLines file depth stack remaining (ln + consumed)
                            cond2 macros2) with
                      | Except.error e => Except.error e
                      | Except.ok (out, condF, macrosF) =>
                          Except.ok (chunk ++ out, condF, macrosF)
            else if ¬ isActive cond then
              ppRun env fuel (PJob.runLines file depth stack restLines ln cond macros)
            else
              match expandLine macros file ln line with
              | Except.error e => Except.error e
              | Except.ok expanded =>
                  match ppRun env fuel
                      (PJob.runLines file depth stack restLines ln cond macros) with
                  | Except.error e => Except.error e
                  | Except.ok (out, condF, macrosF) =>
                      Except.ok (expanded ++ '\n' :: out, condF, macrosF)
  | fuel + 1, PJob.runDirective line file lineNo depth stack cond macros =>
      match line with
      | [] => Except.error (ppFail "HC1003" file lineNo "malformed directive line")
      | c0 :: body =>
          if ¬ c0 = '#' then
            Except.error (ppFail "HC1003" file lineNo "malformed directive line")
          else
            let w := readWord body
            let directive := String.mk w.1
            let rest0 := w.2
            let restLine := rest0.takeWhile (fun c => ¬ c = '\n')
            if directive = "ifdef" then
              let nm := String.mk (readWord rest0).1
              Except.ok ([], pushCond cond (isDefined macros nm), macros)
            else if directive = "ifndef" then
              let nm := String.mk (readWord rest0).1
              Except.ok ([], pushCond cond (! isDefined macros nm), macros)
            else if directive = "if" then
              match evalIfExpr (ifFuel (String.mk restLine)) macros (String.mk restLine) with
              | Except.error e => Except.error e
              | Except.ok b => Except.ok ([], pushCond cond b, macros)
            else if directive = "ifjit" then
              Except.ok ([], pushCond cond env.jitMode, macros)
            else if directive = "ifaot" then
              Except.ok ([], pushCond cond (! env.jitMode), macros)
            else if directive = "else" then
              match cond with
              | [] => Except.error (ppFail "HC1004" file lineNo "stray #else")
              | t :: ts =>
                  Except.ok ([], { t with currentActive := t.parentActive && !t.branchTaken, branchTaken := true } :: ts, macros)
            else if directive = "elif" then
              match cond with
              | [] => Except.error (ppFail "HC1005" file lineNo "stray #elif")
              | t :: ts =>
                  if ¬ t.parentActive ∨ t.branchTaken then
                    Except.ok ([], { t with currentActive := false } :: ts, macros)
                  else
                    match evalIfExpr (ifFuel (String.mk restLine)) macros
                        (String.mk restLine) with
                    | Except.error e => Except.error e
                    | Except.ok matched =>
                        Except.ok ([], { t with currentActive := matched, branchTaken := t.branchTaken || matched } :: ts, macros)
            else if directive = "endif" then
              match cond with
              | [] => Except.error (ppFail "HC1006" file lineNo "stray #endif")
              | _ :: ts => Except.ok ([], ts, macros)
            else if ¬ isActive cond then
              Except.ok ([], cond, macros)
            else if directive = "define" then
              match parseDefine macros (ppTrim restLine) file lineNo with
              | Except.error e => Except.error e
              | Except.ok macros2 => Except.ok ([], cond, macros2)
            else if directive = "include" then
              match extractQuoted (ppTrim restLine) file lineNo "#include" with
              | Except.error e => Except.error e
              | Except.ok target =>
                  match resolveIncludePath env file target lineNo with
                  | Except.error e => Except.error e
                  | Except.ok includePath =>
                      let canonical := env.canon includePath
                      if hmem : canonical ∈ stack then
                        Except.error (ppFail "HC1023" file lineNo
                          ("include cycle detected: " ++ target)
                          (" -> ".intercalate
                            (stack.drop (stack.indexOf canonical) ++ [canonical])))
                      else
                        match fsRead env includePath with
                        | none =>
                            Except.error (ppFail "HC1007" file lineNo
                              ("include not found: " ++ target)
                              "verify include search roots and file path")
                        | some contents =>
                            match ppRun env fuel
                                (PJob.runLines includePath (depth + 1)
                                  (stack ++ [canonical]) (splitLinesCpp contents.data)
                                  0 [] macros) with
                            | Except.error e => Except.error e
                            | Except.ok (chunk, _, macros2) =>
                                Except.ok (chunk, cond, macros2)
            else if directive = "exe" then
              match env.evalExe (String.mk (ppTrim rest0)) file lineNo with
              | Except.error e => Except.error e
              | Except.ok chunk => Except.ok (chunk, cond, macros)
            else if directive = "assert" then
              match evalIfExpr (ifFuel (String.mk restLine)) macros (String.mk restLine) with
              | Except.error e => Except.error e
              | Except.ok b =>
                  if b then Except.ok ([], cond, macros)
                  else Except.error (ppFail "HC1008" file lineNo "#assert failed")
            else
              Except.error (ppFail "HC1009" file lineNo
                ("unsupported directive #" ++ directive))

/-- `Process` / `RunPreprocessor`: fresh include stack seeded with the entry
file's canonical path, empty macro table, depth zero. -/
def ppProcess (env : PPEnv) (fuel : Nat) (source filename : String) :
    Except PPError (List Char) :=
  match ppRun env fuel
      (PJob.runLines filename 0 [env.canon filename] (splitLinesCpp source.data)
        0 [] []) with
  | Except.error e => Except.error e
  | Except.ok (out, _, _) => Except.ok out

/-- A minimal concrete environment for closed evaluations. -/
def exEnv (fs : List (String × String)) : PPEnv :=
  { jitMode := false, includeDirs := [], fs := fs, canon := fun p => p,
    evalExe := fun _ _ _ => Except.ok [] }

example : ppProcess (exEnv []) 9 "x" "main.hc" = Except.ok "x\n".data := rfl

example :
    ppProcess (exEnv []) 99 "#define N 7\nN\n" "main.hc" = Except.ok "7\n".data := rfl

example :
    ppProcess (exEnv []) 99 "#ifdef N\na\n#else\nb\n#endif\n" "main.hc"
      = Except.ok "b\n".data := rfl

example :
    ppProcess (exEnv [("a.hc", "#include \"b.hc\"\n"), ("b.hc", "#include \"a.hc\"\n")])
      99 "#include \"b.hc\"\n" "a.hc"
      = Except.error (ppFail "HC1023" "b.hc" 1 "include cycle detected: a.hc"
          "a.hc -> b.hc -> a.hc") := rfl

theorem ppRun_pure_lines (env : PPEnv) (file : String) (depth : Nat)
    (stack : List String) (hdepth : depth ≤ 64) :
    ∀ fuel lns lineNo, List.length lns < fuel →
      (∀ l ∈ lns, ppStartsWith (ppLTrim l) "#".data = false ∧
          hasBuiltinIdentGo (expandFuel [] l) l = false) →
      ppRun env fuel (PJob.runLines file depth stack lns lineNo [] [])
        = Except.ok (unsplitLines lns, [], []) := by
  intro fuel
  induction fuel with
  | zero => intro lns lineNo h _; omega
  | succ fuel ih =>
    intro lns lineNo hlen hok
    rw [ppRun.eq_def]
    dsimp only
    rw [if_neg (by omega)]
    match lns with
    | [] => simp [unsplitLines]
    | line :: restLines =>
      dsimp only
      obtain ⟨hnd, hnb⟩ := hok line (List.mem_cons_self _ _)
      have hnd2 : ppStartsWith (ppLTrim line) ['#'] = false := hnd
      rw [hnd2]
      simp only [Bool.false_eq_true, if_false]
      rw [if_neg (by simp [isActive])]
      have hexp : expandLine [] file (lineNo + 1) line = Except.ok line :=
        expandTextGo_empty_id file (lineNo + 1) (expandFuel [] line) [] line hnb
      rw [hexp]
      dsimp only
      have hrest := ih restLines (lineNo + 1) (by simp at hlen ⊢; omega)
        (fun l hl => hok l (List.mem_cons_of_mem _ hl))
      rw [hrest]
      dsimp only
      simp [unsplitLines]

/-- C5 counterexample: the claimed byte-for-byte identity fails on the
directive-free source "x" — `ProcessFile` emits a newline after every line,
so a source without a trailing newline gains one. -/
theorem preprocessor_identity_counterexample :
    ppProcess (exEnv []) 9 "x" "main.hc" = Except.ok "x\n".data
      ∧ "x\n".data ≠ "x".data :=
  ⟨rfl, by decide⟩

/-- C5 (amended): a directive-free source is returned byte-for-byte provided
it is empty or newline-terminated (each processed line is re-emitted with a
trailing newline) and no line mentions a builtin macro identifier
(`__FILE__`, `__DIR__`, `__DATE__`, `__TIME__`, `__LINE__`, `__CMD_LINE__`)
outside quoted literals, which `ExpandText` would rewrite even with an empty
macro table. -/
theorem preprocessor_pure_identity (env : PPEnv) (source filename : String) (fuel : Nat)
    (hfuel : List.length (splitLinesCpp source.data) < fuel)
    (hnl : source.data = [] ∨ source.data.getLast? = some '\n')
    (hlines : ∀ l ∈ splitLinesCpp source.data,
        ppStartsWith (ppLTrim l) "#".data = false ∧
        hasBuiltinIdentGo (expandFuel [] l) l = false) :
    ppProcess env fuel source filename = Except.ok source.data := by
  unfold ppProcess
  rw [ppRun_pure_lines env filename 0 [env.canon filename] (by omega) fuel
    (splitLinesCpp source.data) 0 hfuel hlines]
  rw [unsplit_split source.data hnl]

/-- Witness for the amended C5 theorem at the concrete source "a = 1;\n". -/
theorem preprocessor_pure_identity_witness :
    ppProcess (exEnv []) 9 "a = 1;\n" "m.hc" = Except.ok "a = 1;\n".data :=
  preprocessor_pure_identity (exEnv []) "a = 1;\n" "m.hc" 9 (by decide)
    (Or.inr rfl) (by decide)

/-- C6: an `#include` whose resolved canonical path is already on the include
stack fails with HC1023, and the remediation lists the chain from the first
occurrence of that path on the stack through the current file back to it,
joined by " -> "; concretely, mutually-including files a.hc and b.hc fail
with the chain "a.hc -> b.hc -> a.hc" (the entry file's canonical path seeds
the stack in `Process`). -/
theorem include_cycle_hc1023 (env : PPEnv) (fuel : Nat) (line : List Char)
    (file : String) (lineNo : Int) (depth : Nat) (stack : List String)
    (cond : List CondFrame) (macros : Macros) (target includePath : String)
    (hhash : line.head? = some '#')
    (hdir : String.mk (readWord (line.drop 1)).1 = "include")
    (hact : isActive cond = true)
    (hquote : extractQuoted
        (ppTrim ((readWord (line.drop 1)).2.takeWhile (fun c => ¬ c = '\n')))
        file lineNo "#include" = Except.ok target)
    (hres : resolveIncludePath env file target lineNo = Except.ok includePath)
    (hmem : env.canon includePath ∈ stack) :
    ppRun env (fuel + 1) (PJob.runDirective line file lineNo depth stack cond macros)
        = Except.error (ppFail "HC1023" file lineNo
            ("include cycle detected: " ++ target)
            (" -> ".intercalate
              (stack.drop (stack.indexOf (env.canon includePath))
                ++ [env.canon includePath])))
      ∧ ppProcess (exEnv [("a.hc", "#include \"b.hc\"\n"), ("b.hc", "#include \"a.hc\"\n")])
          99 "#include \"b.hc\"\n" "a.hc"
        = Except.error (ppFail "HC1023" "b.hc" 1 "include cycle detected: a.hc"
            "a.hc -> b.hc -> a.hc") := by
  refine ⟨?_, rfl⟩
  match line, hhash with
  | c0 :: body, hhash =>
    have hc0 : c0 = '#' := by simpa using hhash
    subst hc0
    rw [ppRun.eq_def]
    dsimp only
    simp only [List.drop_one, List.tail_cons] at hdir hquote
    rw [if_neg (by simp)]
    rw [hdir]
    rw [if_neg (by decide), if_neg (by decide), if_neg (by decide), if_neg (by decide),
      if_neg (by decide), if_neg (by decide), if_neg (by decide), if_neg (by decide)]
    rw [if_neg (by simp [hact])]
    rw [if_neg (by decide), if_pos rfl]
    rw [hquote]
    dsimp only
    rw [hres]
    dsimp only
    rw [dif_pos hmem]

/-- Witness for the C6 theorem: the directive `#include "a.hc"` seen in b.hc
with a.hc already on the stack. -/
theorem include_cycle_hc1023_witness :
    ppRun (exEnv [("a.hc", "x")]) 9
        (PJob.runDirective "#include \"a.hc\"".data "b.hc" 1 1 ["a.hc", "b.hc"] [] [])
        = Except.error (ppFail "HC1023" "b.hc" 1 "include cycle detected: a.hc"
            (" -> ".intercalate
              ((["a.hc", "b.hc"].drop
                  (["a.hc", "b.hc"].indexOf ((exEnv [("a.hc", "x")]).canon "a.hc")))
                ++ [(exEnv [("a.hc", "x")]).canon "a.hc"])))
      ∧ ppProcess (exEnv [("a.hc", "#include \"b.hc\"\n"), ("b.hc", "#include \"a.hc\"\n")])
          99 "#include \"b.hc\"\n" "a.hc"
        = Except.error (ppFail "HC1023" "b.hc" 1 "include cycle detected: a.hc"
            "a.hc -> b.hc -> a.hc") :=
  include_cycle_hc1023 (exEnv [("a.hc", "x")]) 8 "#include \"a.hc\"".data "b.hc" 1 1
    ["a.hc", "b.hc"] [] [] "a.hc" "a.hc" rfl rfl rfl rfl rfl (by decide)
